import Mathlib

/-!
# mod_xsendfile: the header-directed file substitution filter

A shallow embedding of `apache/mod_xsendfile.c` and theorems about it.

Conventions of the embedding:

* C strings are `String`s (a string has no NUL character; its end is the end of
  the C string); where the source scans characters the model works on the
  character list.
* `apr_status_t`, `int` and `apr_off_t` values are integers (`Int`); the one
  narrowing cast of the source, `(apr_size_t)`, is written out as a remainder.
* Functions of the host (APR, httpd) that the module calls are parameters of the
  model: they are collected in the structure `Host`.
* An automatic variable that the source reads without having written it is a
  parameter of the model (its indeterminate content).
-/

namespace XSendfile

/-! ## Status codes and constants -/

/-- The type `apr_status_t` (an `int`). -/
abbrev apr_status_t := Int

/-- The httpd constant `OK`. -/
def OK : Int := 0

/-- The APR constant `APR_SUCCESS`. -/
def APR_SUCCESS : apr_status_t := 0

/-- The APR constant `APR_EBADPATH` (`APR_OS_START_ERROR + 24`). -/
def APR_EBADPATH : apr_status_t := 20024

def HTTP_OK : Int := 200
def HTTP_FORBIDDEN : Int := 403
def HTTP_NOT_FOUND : Int := 404
def HTTP_INTERNAL_SERVER_ERROR : Int := 500

def AP_XSENDFILE_HEADER : String := "X-SENDFILE"
def AP_XSENDFILETEMPORARY_HEADER : String := "X-SENDFILE-TEMPORARY"

/-! ## Configuration -/

/-- The enum `xsendfile_conf_active_t`. -/
inductive xsendfile_conf_active_t where
  | XSENDFILE_UNSET
  | XSENDFILE_ENABLED
  | XSENDFILE_DISABLED
deriving DecidableEq

open xsendfile_conf_active_t

/-- The struct `xsendfile_path_t`: a root and whether files may be deleted from it. -/
structure xsendfile_path_t where
  path : String
  allowFileDelete : Int
deriving DecidableEq

/-- The struct `xsendfile_conf_t` (the field `temporaryPaths` is never used by the source). -/
structure xsendfile_conf_t where
  enabled : xsendfile_conf_active_t
  ignoreETag : xsendfile_conf_active_t
  ignoreLM : xsendfile_conf_active_t
  unescape : xsendfile_conf_active_t
  paths : List xsendfile_path_t
deriving DecidableEq

/-! ## The request record -/

/-- The values of `apr_filetype_e` the module distinguishes. -/
inductive apr_filetype_e where
  | APR_NOFILE
  | APR_REG
  | APR_DIR
  | APR_OTHER
deriving DecidableEq

/-- An `apr_table_t`: an ordered list of entries, keys compared without regard to case. -/
abbrev apr_table_t := List (String × String)

/-- The fields of `request_rec` the module reads or writes. `is_subreq` is `r->main != NULL`;
`filename` is taken to be set (the filter runs after the request was mapped to a file). -/
structure request_rec where
  the_request : String
  uri : String
  filename : String
  finfo_filetype : apr_filetype_e
  finfo_inode : Int
  finfo_size : Int
  status : Int
  is_subreq : Bool
  handler : Option String
  headers_out : apr_table_t
  err_headers_out : apr_table_t
  no_cache : Int
  no_local_copy : Int
  eos_sent : Int
  mtime : Int
  clength : Int
deriving DecidableEq

/-! ## Character and string helpers of the C library and APR -/

/-- The test `apr_isspace` in the C locale. -/
def apr_isspace (c : Char) : Bool :=
  c == ' ' || c == '\t' || c == '\n' || c == '\x0b' || c == '\x0c' || c == '\r'

/-- The test of the scan `while (*p && !apr_isspace(*p)) ++p` on a character of the string. -/
def nonSpace (c : Char) : Bool := !apr_isspace c

/-- The result of `*((char*)strrchr(s, '/') + 1) = 0`: the string up to and including its
last slash. Only used when the string has a slash. -/
def truncateAfterLastSlash (s : List Char) : List Char :=
  (s.reverse.dropWhile (fun c => c != '/')).reverse

/-! ## The original request path -/

/-- The function `ap_xsendfile_get_orginal_path`. The host function `ap_sub_req_lookup_uri` is
the parameter `lookup`: it maps a URI to the `filename` of the sub-request, or to `none` when no
sub-request is returned. The result is `none` where the source returns `NULL`. -/
def ap_xsendfile_get_orginal_path (lookup : String → Option String) (rec : request_rec) :
    Option String :=
  -- skip method && spaces
  let rv := (rec.the_request.data.dropWhile nonSpace).dropWhile apr_isspace
  -- first space is the request end
  let tok := rv.takeWhile nonSpace
  if tok.length = 0 then none
  else
    let dir : Bool := rec.finfo_filetype == apr_filetype_e.APR_DIR
    let fname : Option (List Char) :=
      -- strncmp(rv, rec->uri, uri_len) == 0
      if tok.isPrefixOf rec.uri.data then some rec.filename.data
      else (lookup (String.mk tok)).map String.data
    match fname with
    | none => none
    | some fn =>
      if !dir && fn.contains '/' then some (String.mk (truncateAfterLastSlash fn))
      else some (String.mk fn)

/-! ## Resolution against the allowed roots -/

/-- The state of the loop of `ap_xsendfile_get_filepath`: the index `i`, the status `rv` and the
out-parameter `*path`. -/
structure filepath_state where
  i : Nat
  rv : apr_status_t
  path : Option String
deriving DecidableEq

/-- The loop `for (i = 0; i < patharr->nelts; ++i)` of `ap_xsendfile_get_filepath`, run on the
roots from index `st.i` on. `merge root file` is
`apr_filepath_merge(path, root, file, APR_FILEPATH_TRUENAME | APR_FILEPATH_NOTABOVEROOT, pool)`:
its status and, when the status is `OK`, the string it stores in `*path` (on failure APR leaves
`*path` as it was). -/
def filepath_loop (merge : String → String → apr_status_t × String) (file : String)
    (shouldDeleteFile : Int) : List xsendfile_path_t → filepath_state → filepath_state
  | [], st => st
  | p :: ps, st =>
    if shouldDeleteFile ≠ 0 ∧ p.allowFileDelete = 0 then
      filepath_loop merge file shouldDeleteFile ps { st with i := st.i + 1 }
    else
      let m := merge p.path file
      if m.1 = OK then { i := st.i, rv := m.1, path := some m.2 }
      else filepath_loop merge file shouldDeleteFile ps { i := st.i + 1, rv := m.1, path := st.path }

/-- The array `patharr` of `ap_xsendfile_get_filepath`: the configured roots, preceded for a
directive that is not temporary by the directory of the original request when there is one. -/
def patharr (lookup : String → Option String) (r : request_rec) (conf : xsendfile_conf_t)
    (shouldDeleteFile : Int) : List xsendfile_path_t :=
  if shouldDeleteFile = 0 then
    match ap_xsendfile_get_orginal_path lookup r with
    | some root => { path := root, allowFileDelete := 0 } :: conf.paths
    | none => conf.paths
  else conf.paths

/-- The state in which the loop of `ap_xsendfile_get_filepath` ends. `rv0` is the content of the
automatic variable `rv`, which the source declares without a value, and `path0` the content of
`*path` on entry. -/
def filepath_final (merge : String → String → apr_status_t × String)
    (lookup : String → Option String) (r : request_rec) (conf : xsendfile_conf_t)
    (file : String) (shouldDeleteFile : Int) (rv0 : apr_status_t) (path0 : Option String) :
    filepath_state :=
  filepath_loop merge file shouldDeleteFile (patharr lookup r conf shouldDeleteFile)
    { i := 0, rv := rv0, path := path0 }

/-- The function `ap_xsendfile_get_filepath`: the status it returns and the content of `*path`
when it returns. -/
def ap_xsendfile_get_filepath (merge : String → String → apr_status_t × String)
    (lookup : String → Option String) (r : request_rec) (conf : xsendfile_conf_t)
    (file : String) (shouldDeleteFile : Int) (rv0 : apr_status_t) (path0 : Option String) :
    apr_status_t × Option String :=
  if (patharr lookup r conf shouldDeleteFile).length = 0 then (APR_EBADPATH, path0)
  else
    let st := filepath_final merge lookup r conf file shouldDeleteFile rv0 path0
    if st.rv ≠ OK then (st.rv, none) else (st.rv, st.path)

/-! ## Header tables -/

/-- The comparison `strcasecmp(a, b) == 0`. -/
def strcaseeq (a b : String) : Bool :=
  a.data.map Char.toLower == b.data.map Char.toLower

/-- The APR function `apr_table_get`: the value of the first entry with the key, `none` for
`NULL`. -/
def apr_table_get (t : apr_table_t) (key : String) : Option String :=
  (t.find? (fun e => strcaseeq e.1 key)).map Prod.snd

/-- The APR function `apr_table_unset`: every entry with the key is removed. -/
def apr_table_unset (t : apr_table_t) (key : String) : apr_table_t :=
  t.filter (fun e => !strcaseeq e.1 key)

/-- The APR function `apr_table_setn`: the first entry with the key takes the value and the
other entries with the key are removed; without such an entry one is added at the end. -/
def apr_table_setn : apr_table_t → String → String → apr_table_t
  | [], key, val => [(key, val)]
  | e :: t, key, val =>
    if strcaseeq e.1 key then (e.1, val) :: apr_table_unset t key
    else e :: apr_table_setn t key val

/-! ## The host -/

/-- The fields of `apr_finfo_t` the module reads. -/
structure apr_finfo_t where
  filetype : apr_filetype_e
  inode : Int
  size : Int
  mtime : Int
deriving DecidableEq

/-- The flags the module passes to `apr_file_open` besides `APR_READ | APR_BINARY`. -/
structure open_flags where
  delonclose : Bool
  sendfile_enabled : Bool
deriving DecidableEq

/-- The functions of APR and httpd the module calls, as far as their results are not fixed by
the model. A file handle is identified with the path it was opened from (`none` is `NULL`). -/
structure Host where
  /-- The `filename` of the request `ap_sub_req_lookup_uri` returns, `none` for `NULL`. -/
  ap_sub_req_lookup_uri : String → Option String
  /-- The status of `apr_filepath_merge` with `APR_FILEPATH_TRUENAME | APR_FILEPATH_NOTABOVEROOT`
  on a root and a file name, and the merged path. -/
  apr_filepath_merge : String → String → apr_status_t × String
  /-- The status of `ap_unescape_url` and the string it leaves in its argument. -/
  ap_unescape_url : String → Int × String
  /-- The status of `apr_file_open`. -/
  apr_file_open : Option String → open_flags → apr_status_t
  /-- The status of `apr_file_info_get` with `APR_FINFO_NORM` and the record it fills. -/
  apr_file_info_get : Option String → apr_status_t × apr_finfo_t
  /-- The date `ap_set_last_modified` writes for the request, `none` when it writes nothing
  (`r->assbackwards`). -/
  last_modified_date : request_rec → Option String
  /-- The entity tag `ap_set_etag` writes for the request. -/
  ap_make_etag : request_rec → String
  /-- The decimal string `ap_set_content_length` writes for a length. -/
  apr_off_t_toa : Int → String
  /-- The result of `ap_meets_conditions`. -/
  ap_meets_conditions : request_rec → Int

/-- The compile-time properties of the platform the module reads: the feature macros
`APR_HAS_SENDFILE` and `APR_HAS_MMAP`, the sizes in bytes of `apr_off_t` and `apr_size_t`,
and the httpd constant `AP_MAX_SENDFILE`. -/
structure Platform where
  APR_HAS_SENDFILE : Bool
  APR_HAS_MMAP : Bool
  sizeof_apr_off_t : Nat
  sizeof_apr_size_t : Nat
  AP_MAX_SENDFILE : Int
deriving DecidableEq

/-- The two settings of `core_dir_config` the module reads:
`enable_sendfile == ENABLE_SENDFILE_OFF` and `enable_mmap == ENABLE_MMAP_ON`. -/
structure core_dir_config where
  enable_sendfile_off : Bool
  enable_mmap_on : Bool
deriving DecidableEq

/-- The httpd function `ap_update_mtime`: the request's `mtime` only moves forward. -/
def ap_update_mtime (r : request_rec) (dependency_mtime : Int) : request_rec :=
  if r.mtime < dependency_mtime then { r with mtime := dependency_mtime } else r

/-- The httpd function `ap_set_last_modified`: it sets `Last-Modified` in `headers_out`. -/
def ap_set_last_modified (H : Host) (r : request_rec) : request_rec :=
  match H.last_modified_date r with
  | some d => { r with headers_out := apr_table_setn r.headers_out "Last-Modified" d }
  | none => r

/-- The httpd function `ap_set_etag`: it sets `ETag` in `headers_out`. -/
def ap_set_etag (H : Host) (r : request_rec) : request_rec :=
  { r with headers_out := apr_table_setn r.headers_out "ETag" (H.ap_make_etag r) }

/-- The httpd function `ap_set_content_length`. -/
def ap_set_content_length (H : Host) (r : request_rec) (clength : Int) : request_rec :=
  { r with clength := clength,
           headers_out := apr_table_setn r.headers_out "Content-Length" (H.apr_off_t_toa clength) }

/-! ## Buckets -/

/-- A file bucket: the handle it reads, the range `[start, start + length)` and whether the
bucket may be memory-mapped (`apr_bucket_file_create` allows it). -/
structure file_bucket where
  fd : Option String
  start : Int
  length : Int
  can_mmap : Bool
deriving DecidableEq

/-- The buckets of a brigade: a bucket of the body the handler produced, a file bucket and the
end-of-stream bucket. -/
inductive apr_bucket where
  | body (content : String)
  | file (b : file_bucket)
  | eos
deriving DecidableEq

/-- The APR function `apr_bucket_file_create`. -/
def apr_bucket_file_create (fd : Option String) (offset len : Int) : file_bucket :=
  { fd := fd, start := offset, length := len, can_mmap := true }

/-- The cast `(apr_size_t)x`. -/
def to_apr_size_t (P : Platform) (x : Int) : Int :=
  x % 2 ^ (8 * P.sizeof_apr_size_t)

/-- The loop `while (fsize > AP_MAX_SENDFILE)` of the filter (lines 564 to 570), run for at most
`fuel` iterations: the bucket `e`, the remaining size and the brigade when the loop is left,
`none` when the iterations do not suffice. -/
def split_loop (P : Platform) :
    Nat → file_bucket → Int → List apr_bucket → Option (file_bucket × Int × List apr_bucket)
  | 0, e, fsize, bb => if fsize > P.AP_MAX_SENDFILE then none else some (e, fsize, bb)
  | fuel + 1, e, fsize, bb =>
    if fsize > P.AP_MAX_SENDFILE then
      split_loop P fuel { e with start := e.start + P.AP_MAX_SENDFILE }
        (fsize - P.AP_MAX_SENDFILE) (bb ++ [apr_bucket.file e])
    else some (e, fsize, bb)

/-- The effect of `apr_bucket_file_enable_mmap(e, 0)` (line 581) on a bucket of the brigade:
the copies made by `apr_bucket_copy` share the file data of `e`, to which `can_mmap` belongs, so
the call clears it for every file bucket of the file. -/
def disable_mmap : apr_bucket → apr_bucket
  | apr_bucket.file b => apr_bucket.file { b with can_mmap := false }
  | apr_bucket.body content => apr_bucket.body content
  | apr_bucket.eos => apr_bucket.eos

/-- The branch of the filter that queues the file (lines 555 to 597), on the emptied brigade:
the brigade after the last file bucket was inserted. The loop is given `size` iterations. -/
def file_buckets (P : Platform) (coreconf : core_dir_config) (fd : Option String)
    (size : Int) : Option (List apr_bucket) :=
  let last : Option (file_bucket × List apr_bucket) :=
    if P.sizeof_apr_off_t > P.sizeof_apr_size_t ∧ size > P.AP_MAX_SENDFILE then
      (split_loop P size.toNat (apr_bucket_file_create fd 0 P.AP_MAX_SENDFILE) size []).map
        (fun s => ({ s.1 with length := to_apr_size_t P s.2.1 }, s.2.2))
    else some (apr_bucket_file_create fd 0 (to_apr_size_t P size), [])
  last.map (fun s =>
    let bb := s.2 ++ [apr_bucket.file s.1]
    if P.APR_HAS_MMAP ∧ coreconf.enable_mmap_on then bb.map disable_mmap else bb)

/-! ## Configuration merge -/

/-- The macro `XSENDFILE_CFLAG` on one flag. -/
def XSENDFILE_CFLAG (overrides base : xsendfile_conf_active_t) : xsendfile_conf_active_t :=
  if overrides ≠ XSENDFILE_UNSET then overrides else base

/-- The function `xsendfile_config_merge`. -/
def xsendfile_config_merge (base overrides : xsendfile_conf_t) : xsendfile_conf_t :=
  { enabled := XSENDFILE_CFLAG overrides.enabled base.enabled,
    ignoreETag := XSENDFILE_CFLAG overrides.ignoreETag base.ignoreETag,
    ignoreLM := XSENDFILE_CFLAG overrides.ignoreLM base.ignoreLM,
    unescape := XSENDFILE_CFLAG overrides.unescape base.unescape,
    paths := overrides.paths ++ base.paths }

/-! ## The output filter -/

/-- The test `!file || !*file` of the filter. -/
def no_value (file : Option String) : Bool :=
  match file with
  | none => true
  | some v => v.data.isEmpty

/-- Lines 325 to 347 of the filter: the look-ups of the directive. The result is the content of
`file` and `shouldDeleteFile` after them. -/
def select_directive (r : request_rec) : Option String × Int :=
  let file := apr_table_get r.headers_out AP_XSENDFILE_HEADER
  let file := if no_value file then apr_table_get r.err_headers_out AP_XSENDFILE_HEADER else file
  let shouldDeleteFile : Int := if no_value file then 1 else 0
  let file :=
    if no_value file then apr_table_get r.headers_out AP_XSENDFILETEMPORARY_HEADER else file
  let file :=
    if no_value file then apr_table_get r.err_headers_out AP_XSENDFILETEMPORARY_HEADER else file
  (file, shouldDeleteFile)

/-- Lines 349 to 353 of the filter: the four calls of `apr_table_unset`. -/
def remove_directive_headers (r : request_rec) : request_rec :=
  { r with
    headers_out :=
      apr_table_unset (apr_table_unset r.headers_out AP_XSENDFILE_HEADER)
        AP_XSENDFILETEMPORARY_HEADER,
    err_headers_out :=
      apr_table_unset (apr_table_unset r.err_headers_out AP_XSENDFILE_HEADER)
        AP_XSENDFILETEMPORARY_HEADER }

/-- Lines 373 to 379 of the filter, after the brigade was emptied. -/
def drop_body_headers (r : request_rec) : request_rec :=
  { r with
    eos_sent := 0,
    headers_out :=
      apr_table_unset (apr_table_unset r.headers_out "Content-Length") "Content-Encoding",
    err_headers_out :=
      apr_table_unset (apr_table_unset r.err_headers_out "Content-Length") "Content-Encoding" }

/-- The test of lines 313 to 317 of the filter: the response is not processed when its status
is not 200, when the request is a sub-request, or when the handler is the default handler. -/
def request_skipped (r : request_rec) : Prop :=
  r.status ≠ HTTP_OK ∨ r.is_subreq = true ∨ r.handler = some "default-handler"

instance (r : request_rec) : Decidable (request_skipped r) := by
  unfold request_skipped; infer_instance

/-- What became of the file handle `fd` of the filter. -/
inductive file_state where
  | not_opened
  | opened (path : Option String) (flags : open_flags)
  | closed (path : Option String) (flags : open_flags)
deriving DecidableEq

/-- How the filter ends: with `ap_pass_brigade(f->next, in)` on a brigade, or with
`ap_die(status, r)` and the return of that status. -/
inductive Outcome where
  | passed (bb : List apr_bucket)
  | died (status : Int)
deriving DecidableEq

/-- The request record, the end of the filter and the file handle when the filter returns.
On every path the filter has removed itself from the chain by then. -/
structure filter_result where
  r : request_rec
  outcome : Outcome
  file : file_state
deriving DecidableEq

/-- The state of the filter at line 499: the file named by the directive was resolved, opened
and found to be a regular file. -/
structure located where
  r : request_rec
  file : String
  shouldDeleteFile : Int
  translated : Option String
  flags : open_flags
  finfo : apr_finfo_t
deriving DecidableEq

/-- Lines 313 to 498 of the filter: either the filter ends there, or the file is located.
`rv0` is the indeterminate content of the variable `rv` of `ap_xsendfile_get_filepath`. -/
def xsendfile_locate (H : Host) (P : Platform) (coreconf : core_dir_config)
    (conf : xsendfile_conf_t) (rv0 : apr_status_t) (r : request_rec) (bin : List apr_bucket) :
    filter_result ⊕ located :=
  -- should we proceed with this request?
  if request_skipped r then
    Sum.inl { r := r, outcome := Outcome.passed bin, file := file_state.not_opened }
  else
    let sel := select_directive r
    let r := remove_directive_headers r
    -- nothing there
    if no_value sel.1 then
      Sum.inl { r := r, outcome := Outcome.passed bin, file := file_state.not_opened }
    else
      let file := sel.1.getD ""
      let shouldDeleteFile := sel.2
      -- drop everything
      let r := drop_body_headers r
      let dec : Int × String :=
        if conf.unescape ≠ XSENDFILE_DISABLED then H.ap_unescape_url file else (OK, file)
      if dec.1 ≠ OK then
        Sum.inl { r := r, outcome := Outcome.died HTTP_INTERNAL_SERVER_ERROR,
                  file := file_state.not_opened }
      else
        let file := dec.2
        let found := ap_xsendfile_get_filepath H.apr_filepath_merge H.ap_sub_req_lookup_uri
          r conf file shouldDeleteFile rv0 none
        if found.1 ≠ OK then
          Sum.inl { r := r, outcome := Outcome.died HTTP_NOT_FOUND,
                    file := file_state.not_opened }
        else
          let translated := found.2
          let flags : open_flags :=
            { delonclose := decide (shouldDeleteFile ≠ 0),
              sendfile_enabled := P.APR_HAS_SENDFILE && !coreconf.enable_sendfile_off }
          if H.apr_file_open translated flags ≠ APR_SUCCESS then
            Sum.inl { r := r, outcome := Outcome.died HTTP_NOT_FOUND,
                      file := file_state.not_opened }
          else
            let st := H.apr_file_info_get translated
            if st.1 ≠ APR_SUCCESS then
              Sum.inl { r := r, outcome := Outcome.died HTTP_FORBIDDEN,
                        file := file_state.closed translated flags }
            else if st.2.filetype ≠ apr_filetype_e.APR_REG then
              Sum.inl { r := r, outcome := Outcome.died HTTP_NOT_FOUND,
                        file := file_state.closed translated flags }
            else
              Sum.inr { r := r, file := file, shouldDeleteFile := shouldDeleteFile,
                        translated := translated, flags := flags, finfo := st.2 }

/-- Lines 505 to 511 of the filter: the inode and the size of the file are copied into the
request and caching is enabled again. -/
def splice_finfo (r : request_rec) (finfo : apr_finfo_t) : request_rec :=
  { r with finfo_inode := finfo.inode, finfo_size := finfo.size,
           no_cache := 0, no_local_copy := 0 }

/-- Lines 513 to 524 of the filter: the `Last-Modified` header. Both look-ups of the condition
read `headers_out`, as in the source. -/
def last_modified_step (H : Host) (conf : xsendfile_conf_t) (r : request_rec)
    (finfo : apr_finfo_t) : request_rec :=
  if conf.ignoreLM = XSENDFILE_ENABLED
      ∨ (apr_table_get r.headers_out "last-modified" = none
        ∧ apr_table_get r.headers_out "last-modified" = none) then
    ap_set_last_modified H
      (ap_update_mtime
        { r with err_headers_out := apr_table_unset r.err_headers_out "last-modified" }
        finfo.mtime)
  else r

/-- Lines 525 to 534 of the filter: the `ETag` header. -/
def etag_step (H : Host) (conf : xsendfile_conf_t) (r : request_rec) : request_rec :=
  if conf.ignoreETag = XSENDFILE_ENABLED
      ∨ (apr_table_get r.headers_out "etag" = none
        ∧ apr_table_get r.err_headers_out "etag" = none) then
    ap_set_etag H { r with err_headers_out := apr_table_unset r.err_headers_out "etag" }
  else r

/-- Lines 505 to 536 of the filter: the fields and headers set from the file. -/
def xsendfile_metadata (H : Host) (conf : xsendfile_conf_t) (r : request_rec)
    (finfo : apr_finfo_t) : request_rec :=
  ap_set_content_length H
    (etag_step H conf (last_modified_step H conf (splice_finfo r finfo) finfo)) finfo.size

/-- The assignment `r->status = errcode` of line 552. -/
def set_status (r : request_rec) (errcode : Int) : request_rec :=
  { r with status := errcode }

/-- Lines 538 to 610 of the filter, from the located file on: the conditions are evaluated and
the brigade is passed on. The result is `none` when the loop that splits the file does not end
within the iterations it is given. -/
def xsendfile_emit (H : Host) (P : Platform) (coreconf : core_dir_config)
    (conf : xsendfile_conf_t) (loc : located) : Option filter_result :=
  let r := xsendfile_metadata H conf loc.r loc.finfo
  let errcode := H.ap_meets_conditions r
  if errcode ≠ OK then
    some { r := set_status r errcode, outcome := Outcome.passed [apr_bucket.eos],
           file := file_state.closed loc.translated loc.flags }
  else
    (file_buckets P coreconf loc.translated loc.finfo.size).map (fun bb =>
      { r := r, outcome := Outcome.passed (bb ++ [apr_bucket.eos]),
        file := file_state.opened loc.translated loc.flags })

/-- The function `ap_xsendfile_output_filter`, on the server configuration `sconf`, the
directory configuration `dconf`, the request `r` and the brigade `bin`. -/
def ap_xsendfile_output_filter (H : Host) (P : Platform) (coreconf : core_dir_config)
    (sconf dconf : xsendfile_conf_t) (rv0 : apr_status_t) (r : request_rec)
    (bin : List apr_bucket) : Option filter_result :=
  let conf := xsendfile_config_merge sconf dconf
  match xsendfile_locate H P coreconf conf rv0 r bin with
  | Sum.inl res => some res
  | Sum.inr loc => xsendfile_emit H P coreconf conf loc

/-! ## Lexical containment -/

/-- The components of a path: the non-empty pieces between slashes. -/
def pathComponents (s : String) : List (List Char) :=
  (s.data.splitOn '/').filter (fun c => c != [])

/-- The path `p` is a lexical descendant of `root`: the components of `root` are the first
components of `p`, and `p` has no `..` component. -/
def lexicallyUnder (root p : String) : Prop :=
  (pathComponents root).isPrefixOf (pathComponents p) = true ∧
    (pathComponents p).contains ['.', '.'] = false

instance (root p : String) : Decidable (lexicallyUnder root p) := by
  unfold lexicallyUnder; infer_instance

/-! ## The decoder of the host -/

def HTTP_BAD_REQUEST : Int := 400

/-- The test `apr_isxdigit`. -/
def apr_isxdigit (c : Char) : Bool :=
  ('0' ≤ c && c ≤ '9') || ('a' ≤ c && c ≤ 'f') || ('A' ≤ c && c ≤ 'F')

/-- The value of one hexadecimal digit, as `x2c` of httpd computes it. -/
def hexval (c : Char) : Nat :=
  if 'A' ≤ c then (if 'a' ≤ c then c.toNat - 'a'.toNat else c.toNat - 'A'.toNat) + 10
  else c.toNat - '0'.toNat

/-- The loop of `ap_unescape_url`: the decoded characters, `badesc` and `badpath`. -/
def unescape_chars : List Char → List Char × Bool × Bool
  | [] => ([], false, false)
  | [c] => ([c], c == '%', false)
  | [c, d] =>
    let t := unescape_chars [d]
    (c :: t.1, c == '%' || t.2.1, t.2.2)
  | c :: a :: b :: rest =>
    if c == '%' && apr_isxdigit a && apr_isxdigit b then
      let x := Char.ofNat (16 * hexval a + hexval b)
      let t := unescape_chars rest
      (x :: t.1, t.2.1, x == '/' || x == Char.ofNat 0 || t.2.2)
    else
      let t := unescape_chars (a :: b :: rest)
      (c :: t.1, c == '%' || t.2.1, t.2.2)

/-- The httpd function `ap_unescape_url` (util.c of httpd 2.2, the host the module is written
for; it is not part of the module). It decodes every `%xx`, and returns `HTTP_BAD_REQUEST` after
a `%` that is not followed by two hexadecimal digits, `HTTP_NOT_FOUND` after an escape that
decodes to a slash or to NUL, and `OK` otherwise. The module relies on these statuses: the
comment at lines 387 to 390 of the filter reads "NOT_FOUND refers to escape sequences containing
slashes, what we do not allow (use real slashes only)". -/
def ap_unescape_url (url : String) : Int × String :=
  let t := unescape_chars url.data
  (if t.2.1 then HTTP_BAD_REQUEST else if t.2.2 then HTTP_NOT_FOUND else OK, String.mk t.1)

/-! ## A small host for concrete runs -/

/-- The APR status `APR_ENOENT` on Unix. -/
def APR_ENOENT : apr_status_t := 2

/-- A request for `/app/report.php` that was mapped to `/var/www/app/report.php`. -/
def sampleRequest : request_rec :=
  { the_request := "GET /app/report.php HTTP/1.1", uri := "/app/report.php",
    filename := "/var/www/app/report.php", finfo_filetype := apr_filetype_e.APR_REG,
    finfo_inode := 7, finfo_size := 120, status := 200, is_subreq := false,
    handler := some "php-script", headers_out := [], err_headers_out := [],
    no_cache := 1, no_local_copy := 1, eos_sent := 1, mtime := 0, clength := 0 }

/-- A merge for concrete runs: a file system that holds four files, one in the directory of
`sampleRequest`, one below `/srv/tmp` and two below `/srv/files`. -/
def sampleMerge (root file : String) : apr_status_t × String :=
  if root = "/var/www/app/" ∧ file = "x.txt" then (OK, "/var/www/app/x.txt")
  else if root = "/srv/files" ∧ file = "reports/out.pdf" then (OK, "/srv/files/reports/out.pdf")
  else if root = "/srv/tmp" ∧ file = "tmp/export.csv" then (OK, "/srv/tmp/tmp/export.csv")
  else if root = "/srv/files" ∧ file = "tmp/export.csv" then (OK, "/srv/files/tmp/export.csv")
  else (APR_ENOENT, "")

/-- A host for concrete runs: the files of `sampleMerge` can be opened and are regular files of
ten bytes, and `ap_meets_conditions` returns `errcode`. -/
def sampleHost (errcode : Int) : Host :=
  { ap_sub_req_lookup_uri := fun _ => none,
    apr_filepath_merge := sampleMerge,
    ap_unescape_url := ap_unescape_url,
    apr_file_open := fun p _ =>
      if p = some "/var/www/app/x.txt" ∨ p = some "/srv/files/reports/out.pdf"
          ∨ p = some "/srv/tmp/tmp/export.csv" ∨ p = some "/srv/files/tmp/export.csv"
      then APR_SUCCESS else APR_ENOENT,
    apr_file_info_get := fun _ =>
      (APR_SUCCESS, { filetype := apr_filetype_e.APR_REG, inode := 11, size := 10, mtime := 1000 }),
    last_modified_date := fun _ => some "Thu, 01 Jan 1970 00:00:01 GMT",
    ap_make_etag := fun _ => "b-a-3e8",
    apr_off_t_toa := fun n => toString n,
    ap_meets_conditions := fun _ => errcode }

/-- A platform for concrete runs: `apr_off_t` of 8 bytes, `apr_size_t` of 4 bytes, and a
segment limit of 4 bytes. -/
def samplePlatform : Platform :=
  { APR_HAS_SENDFILE := true, APR_HAS_MMAP := true, sizeof_apr_off_t := 8,
    sizeof_apr_size_t := 4, AP_MAX_SENDFILE := 4 }

/-- A configuration with the single root `/srv/files`, from which no file may be deleted. -/
def filesOnlyConf : xsendfile_conf_t :=
  { enabled := XSENDFILE_ENABLED, ignoreETag := XSENDFILE_UNSET, ignoreLM := XSENDFILE_UNSET,
    unescape := XSENDFILE_UNSET, paths := [{ path := "/srv/files", allowFileDelete := 0 }] }

/-- A configuration with the roots `/srv/files` (no deletion) and `/srv/tmp` (deletion allowed),
in this order. -/
def mixedConf : xsendfile_conf_t :=
  { enabled := XSENDFILE_ENABLED, ignoreETag := XSENDFILE_UNSET, ignoreLM := XSENDFILE_UNSET,
    unescape := XSENDFILE_UNSET,
    paths := [{ path := "/srv/files", allowFileDelete := 0 },
              { path := "/srv/tmp", allowFileDelete := 1 }] }

/-- The assumption on `apr_filepath_merge`: it succeeds only with a path that is lexically
under the root it was given. -/
def merge_under_root (merge : String → String → apr_status_t × String) : Prop :=
  ∀ root file : String, (merge root file).1 = OK → lexicallyUnder root (merge root file).2

/-! ## Predicates on the loop of the resolution -/

/-- The loop tries the root `p`: the test on `allowFileDelete` does not skip it. -/
def attempted (shouldDeleteFile : Int) (p : xsendfile_path_t) : Prop :=
  ¬ (shouldDeleteFile ≠ 0 ∧ p.allowFileDelete = 0)

instance (shouldDeleteFile : Int) (p : xsendfile_path_t) :
    Decidable (attempted shouldDeleteFile p) := by
  unfold attempted; infer_instance

/-- The loop stops at the root `p`: it tries it and the merge succeeds there. -/
def accepts (merge : String → String → apr_status_t × String) (file : String)
    (shouldDeleteFile : Int) (p : xsendfile_path_t) : Prop :=
  attempted shouldDeleteFile p ∧ (merge p.path file).1 = OK

instance (merge : String → String → apr_status_t × String) (file : String)
    (shouldDeleteFile : Int) (p : xsendfile_path_t) :
    Decidable (accepts merge file shouldDeleteFile p) := by
  unfold accepts; infer_instance

/-! ## Predicates on tables and brigades -/

/-- The table has no entry whose key is one of the two directive headers. -/
def no_directive (t : apr_table_t) : Prop :=
  ∀ e ∈ t, strcaseeq e.1 AP_XSENDFILE_HEADER = false ∧
    strcaseeq e.1 AP_XSENDFILETEMPORARY_HEADER = false

/-- The byte ranges of the file buckets `bs`, in their order, are consecutive: the first starts
at `first`, each starts where the one before it ends, and the last ends at `last`. -/
def consecutive : Int → List file_bucket → Int → Prop
  | first, [], last => first = last
  | first, b :: bs, last => b.start = first ∧ 0 ≤ b.length ∧ consecutive (first + b.length) bs last

/-- The four slots in which the filter looks for the directive, in the order of its look-ups,
each with the value `shouldDeleteFile` has when the directive is taken from it. -/
def directive_slots (r : request_rec) : List (Option String × Int) :=
  [(apr_table_get r.headers_out AP_XSENDFILE_HEADER, 0),
   (apr_table_get r.err_headers_out AP_XSENDFILE_HEADER, 0),
   (apr_table_get r.headers_out AP_XSENDFILETEMPORARY_HEADER, 1),
   (apr_table_get r.err_headers_out AP_XSENDFILETEMPORARY_HEADER, 1)]

/-- A response with status 200 whose handler set an empty `X-Sendfile` header and, in the
error headers, an `X-Sendfile-Temporary` header. -/
def emptyPermanentRequest : request_rec :=
  { sampleRequest with
    headers_out := [("X-Sendfile", "")],
    err_headers_out := [("X-Sendfile-Temporary", "tmp/export.csv")] }

/-- A response with status 404 that carries an `X-Sendfile` header. -/
def notFoundRequest : request_rec :=
  { sampleRequest with
    status := 404,
    headers_out := [("Content-Type", "text/html"), ("X-Sendfile", "reports/out.pdf")] }

/-- A response with status 200 whose directive is the file `reports/out.pdf`. -/
def reportRequest : request_rec :=
  { sampleRequest with
    headers_out := [("Content-Type", "text/html"), ("X-Sendfile", "reports/out.pdf")] }

/-- A response whose directive is the percent-encoded traversal with an encoded slash. -/
def encodedSlashRequest : request_rec :=
  { sampleRequest with headers_out := [("X-Sendfile", "%2e%2e%2fsecret")] }

/-- A response whose directive is the traversal with encoded dots and a literal slash. -/
def encodedDotsRequest : request_rec :=
  { sampleRequest with headers_out := [("X-Sendfile", "%2e%2e/secret")] }

/-- A response whose handler wrote `Last-Modified` to the error headers only. -/
def scriptDateRequest : request_rec :=
  { sampleRequest with
    err_headers_out := [("Last-Modified", "Tue, 01 Jan 2008 00:00:00 GMT")] }

/-- The record `apr_file_info_get` fills on the sample host. -/
def sampleFinfo : apr_finfo_t :=
  { filetype := apr_filetype_e.APR_REG, inode := 11, size := 10, mtime := 1000 }

/-- The state in which the filter on the sample host has located the file of `reportRequest`
under the root `/srv/files`. -/
def reportLocated : located :=
  { r := drop_body_headers (remove_directive_headers reportRequest),
    file := "reports/out.pdf", shouldDeleteFile := 0,
    translated := some "/srv/files/reports/out.pdf",
    flags := { delonclose := false, sendfile_enabled := true }, finfo := sampleFinfo }

/-- Neither header map of the request has a directive entry. -/
def clean (r : request_rec) : Prop :=
  no_directive r.headers_out ∧ no_directive r.err_headers_out

/-- A merge for concrete runs that, besides the files of `sampleMerge`, resolves `../secret` on
the root `/` to `/secret`. -/
def rootedMerge (root file : String) : apr_status_t × String :=
  if root = "/" ∧ file = "../secret" then (OK, "/secret") else sampleMerge root file

/-- The sample host with the merge `rootedMerge`. -/
def rootedHost (errcode : Int) : Host :=
  { sampleHost errcode with apr_filepath_merge := rootedMerge }

/-! ## Lemmas on the loop of the resolution -/

theorem filepath_loop_accept (merge : String → String → apr_status_t × String) (file : String)
    (sdf : Int) (ps : List xsendfile_path_t) (p : xsendfile_path_t) :
    ∀ st : filepath_state,
      ps.find? (fun q => decide (accepts merge file sdf q)) = some p →
      filepath_loop merge file sdf ps st =
        { i := st.i + ps.findIdx (fun q => decide (accepts merge file sdf q)),
          rv := OK, path := some (merge p.path file).2 } := by
  induction ps with
  | nil => intro st h; simp at h
  | cons q qs ih =>
    intro st h
    by_cases hskip : sdf ≠ 0 ∧ q.allowFileDelete = 0
    · have hna : ¬ accepts merge file sdf q := fun ha => ha.1 hskip
      rw [List.find?_cons_of_neg _ (by simpa using hna)] at h
      rw [filepath_loop, if_pos hskip, ih _ h, List.findIdx_cons]
      simp [hna, Nat.add_assoc, Nat.add_comm 1]
    · by_cases hm : (merge q.path file).1 = OK
      · have ha : accepts merge file sdf q := ⟨hskip, hm⟩
        rw [List.find?_cons_of_pos _ (by simpa using ha)] at h
        cases h
        rw [filepath_loop, if_neg hskip, List.findIdx_cons]
        simp [hm, ha]
      · have hna : ¬ accepts merge file sdf q := fun ha => hm ha.2
        rw [List.find?_cons_of_neg _ (by simpa using hna)] at h
        rw [filepath_loop, if_neg hskip]
        simp only [hm, if_false]
        rw [ih _ h, List.findIdx_cons]
        simp [hna, Nat.add_assoc, Nat.add_comm 1]

theorem filepath_loop_reject (merge : String → String → apr_status_t × String) (file : String)
    (sdf : Int) (ps : List xsendfile_path_t) :
    ∀ st : filepath_state,
      ps.find? (fun q => decide (accepts merge file sdf q)) = none →
      (filepath_loop merge file sdf ps st).i = st.i + ps.length ∧
      (filepath_loop merge file sdf ps st).path = st.path ∧
      ((st.rv ≠ OK ∨ ∃ q ∈ ps, attempted sdf q) →
        (filepath_loop merge file sdf ps st).rv ≠ OK) ∧
      ((∀ q ∈ ps, ¬ attempted sdf q) →
        (filepath_loop merge file sdf ps st).rv = st.rv) := by
  induction ps with
  | nil => intro st _; simp [filepath_loop]
  | cons q qs ih =>
    intro st h
    have hq : ¬ accepts merge file sdf q := by
      intro ha
      rw [List.find?_cons_of_pos _ (by simpa using ha)] at h
      cases h
    rw [List.find?_cons_of_neg _ (by simpa using hq)] at h
    by_cases hskip : sdf ≠ 0 ∧ q.allowFileDelete = 0
    · have hnq : ¬ attempted sdf q := fun ha => ha hskip
      obtain ⟨h1, h2, h3, h4⟩ := ih { st with i := st.i + 1 } h
      rw [filepath_loop, if_pos hskip]
      refine ⟨by rw [h1]; simp [Nat.add_assoc, Nat.add_comm 1], h2, ?_, ?_⟩
      · rintro (hrv | ⟨x, hx, hax⟩)
        · exact h3 (Or.inl hrv)
        · rcases List.mem_cons.1 hx with rfl | hx
          · exact absurd hax hnq
          · exact h3 (Or.inr ⟨x, hx, hax⟩)
      · intro hall
        exact h4 (fun x hx => hall x (List.mem_cons_of_mem _ hx))
    · have hm : (merge q.path file).1 ≠ OK := fun hm => hq ⟨hskip, hm⟩
      obtain ⟨h1, h2, h3, h4⟩ :=
        ih { i := st.i + 1, rv := (merge q.path file).1, path := st.path } h
      rw [filepath_loop, if_neg hskip]
      simp only [hm, if_false]
      refine ⟨by rw [h1]; simp [Nat.add_assoc, Nat.add_comm 1], h2, ?_, ?_⟩
      · intro _
        exact h3 (Or.inl hm)
      · intro hall
        exact absurd hskip (hall q (List.mem_cons_self _ _))

theorem getElem_findIdx_of_find {α : Type} (p : α → Bool) (xs : List α) (a : α)
    (h : xs.find? p = some a) : xs[xs.findIdx p]? = some a := by
  induction xs with
  | nil => simp at h
  | cons x xs ih =>
    by_cases hx : p x = true
    · rw [List.find?_cons_of_pos _ hx] at h
      rw [List.findIdx_cons]
      simpa [hx] using h
    · rw [List.find?_cons_of_neg _ hx] at h
      rw [List.findIdx_cons]
      simpa [hx] using ih h

theorem filepath_loop_congr (merge merge2 : String → String → apr_status_t × String)
    (file : String) (sdf : Int) (ps : List xsendfile_path_t) :
    (∀ q ∈ ps, attempted sdf q → merge2 q.path file = merge q.path file) →
    ∀ st : filepath_state,
      filepath_loop merge2 file sdf ps st = filepath_loop merge file sdf ps st := by
  induction ps with
  | nil => intro _ st; rfl
  | cons q qs ih =>
    intro h st
    have ih2 := ih (fun x hx => h x (List.mem_cons_of_mem _ hx))
    by_cases hskip : sdf ≠ 0 ∧ q.allowFileDelete = 0
    · rw [filepath_loop, filepath_loop, if_pos hskip, if_pos hskip, ih2]
    · rw [filepath_loop, filepath_loop, if_neg hskip, if_neg hskip,
        h q (List.mem_cons_self _ _) hskip]
      by_cases hm : (merge q.path file).1 = OK
      · simp [hm]
      · simp only [hm, if_false]
        rw [ih2]

theorem mem_patharr (lookup : String → Option String) (r : request_rec)
    (conf : xsendfile_conf_t) (sdf : Int) (q : xsendfile_path_t)
    (h : q ∈ patharr lookup r conf sdf) :
    q ∈ conf.paths ∨
      (sdf = 0 ∧ ∃ root, ap_xsendfile_get_orginal_path lookup r = some root ∧ q.path = root) := by
  unfold patharr at h
  by_cases hs : sdf = 0
  · rw [if_pos hs] at h
    cases ho : ap_xsendfile_get_orginal_path lookup r with
    | none => rw [ho] at h; exact Or.inl h
    | some root =>
      rw [ho] at h
      rcases List.mem_cons.1 h with rfl | h
      · exact Or.inr ⟨hs, root, rfl, rfl⟩
      · exact Or.inl h
  · rw [if_neg hs] at h; exact Or.inl h

theorem patharr_temporary (lookup : String → Option String) (r : request_rec)
    (conf : xsendfile_conf_t) (sdf : Int) (h : sdf ≠ 0) :
    patharr lookup r conf sdf = conf.paths := by
  unfold patharr; rw [if_neg h]

theorem sampleMerge_under_root : merge_under_root sampleMerge := by
  intro root file h
  unfold sampleMerge at h ⊢
  split_ifs at h ⊢ with h1 h2 h3 h4
  · rw [h1.1]; decide
  · rw [h2.1]; decide
  · rw [h3.1]; decide
  · rw [h4.1]; decide
  · exact absurd h (by decide)

theorem get_filepath_of_find_some (merge : String → String → apr_status_t × String)
    (lookup : String → Option String) (r : request_rec) (conf : xsendfile_conf_t)
    (file : String) (sdf : Int) (rv0 : apr_status_t) (path0 : Option String)
    (q : xsendfile_path_t)
    (hf : (patharr lookup r conf sdf).find? (fun q => decide (accepts merge file sdf q))
      = some q) :
    ap_xsendfile_get_filepath merge lookup r conf file sdf rv0 path0 =
      (OK, some (merge q.path file).2) := by
  have hloop := filepath_loop_accept merge file sdf _ q ⟨0, rv0, path0⟩ hf
  have hne : ¬ (patharr lookup r conf sdf).length = 0 := by
    intro h
    rw [List.length_eq_zero] at h
    rw [h] at hf
    simp at hf
  unfold ap_xsendfile_get_filepath filepath_final
  rw [if_neg hne, hloop]
  simp

theorem find_accepts_temporary (merge : String → String → apr_status_t × String)
    (file : String) (sdf : Int) (htemp : sdf ≠ 0) (ps : List xsendfile_path_t) :
    ps.find? (fun q => decide (accepts merge file sdf q)) =
      (ps.filter (fun q => decide (q.allowFileDelete ≠ 0))).find?
        (fun q => decide ((merge q.path file).1 = OK)) := by
  induction ps with
  | nil => rfl
  | cons q qs ih =>
    by_cases hdel : q.allowFileDelete = 0
    · have hna : ¬ accepts merge file sdf q := fun ha => ha.1 ⟨htemp, hdel⟩
      rw [List.find?_cons_of_neg _ (by simpa using hna),
        List.filter_cons_of_neg (by simpa using hdel), ih]
    · rw [List.filter_cons_of_pos (by simpa using hdel)]
      by_cases hm : (merge q.path file).1 = OK
      · have ha : accepts merge file sdf q := ⟨fun hc => hdel hc.2, hm⟩
        rw [List.find?_cons_of_pos _ (by simpa using ha),
          List.find?_cons_of_pos _ (by simpa using hm)]
      · have hna : ¬ accepts merge file sdf q := fun ha => hm ha.2
        rw [List.find?_cons_of_neg _ (by simpa using hna),
          List.find?_cons_of_neg _ (by simpa using hm), ih]

/-! ## Resolution: containment, deletion policy, order of the roots -/

/-- Claim C1, as the code has it: when the loop tries at least one root (the directive is not
temporary, or some configured root allows deletion), `ap_xsendfile_get_filepath` either fails
or returns a path that is a lexical descendant of a configured root or, for a directive that is
not temporary, of the directory of the original request. -/
theorem get_filepath_under_candidate_root
    (merge : String → String → apr_status_t × String) (lookup : String → Option String)
    (r : request_rec) (conf : xsendfile_conf_t) (file : String) (sdf : Int)
    (rv0 : apr_status_t) (path0 : Option String)
    (horacle : merge_under_root merge)
    (htried : sdf = 0 ∨ ∃ q ∈ conf.paths, q.allowFileDelete ≠ 0) :
    (ap_xsendfile_get_filepath merge lookup r conf file sdf rv0 path0).1 ≠ OK ∨
    ∃ p, (ap_xsendfile_get_filepath merge lookup r conf file sdf rv0 path0).2 = some p ∧
      ((∃ root ∈ conf.paths, lexicallyUnder root.path p) ∨
        (sdf = 0 ∧ ∃ root, ap_xsendfile_get_orginal_path lookup r = some root ∧
          lexicallyUnder root p)) := by
  unfold ap_xsendfile_get_filepath
  by_cases hlen : (patharr lookup r conf sdf).length = 0
  · rw [if_pos hlen]; left; simp [APR_EBADPATH, OK]
  · rw [if_neg hlen]
    cases hf : (patharr lookup r conf sdf).find? (fun q => decide (accepts merge file sdf q)) with
    | some q =>
      right
      have hloop := filepath_loop_accept merge file sdf _ q ⟨0, rv0, path0⟩ hf
      have hacc : accepts merge file sdf q := by simpa using List.find?_some hf
      have hmem := mem_patharr lookup r conf sdf q (List.mem_of_find?_eq_some hf)
      refine ⟨(merge q.path file).2, ?_, ?_⟩
      · simp [filepath_final, hloop]
      · rcases hmem with hmem | ⟨hs, root, ho, hq⟩
        · exact Or.inl ⟨q, hmem, horacle _ _ hacc.2⟩
        · exact Or.inr ⟨hs, root, ho, hq ▸ horacle _ _ hacc.2⟩
    | none =>
      left
      obtain ⟨-, -, h3, -⟩ := filepath_loop_reject merge file sdf _ ⟨0, rv0, path0⟩ hf
      have hrv : (filepath_final merge lookup r conf file sdf rv0 path0).rv ≠ OK := by
        apply h3
        right
        rcases htried with hs | ⟨q, hq, hdel⟩
        · obtain ⟨q, hq⟩ := List.exists_mem_of_length_pos (Nat.pos_of_ne_zero hlen)
          exact ⟨q, hq, fun hc => hc.1 hs⟩
        · by_cases hs : sdf = 0
          · obtain ⟨q, hq⟩ := List.exists_mem_of_length_pos (Nat.pos_of_ne_zero hlen)
            exact ⟨q, hq, fun hc => hc.1 hs⟩
          · exact ⟨q, by rw [patharr_temporary _ _ _ _ hs]; exact hq, fun hc => hdel hc.2⟩
      simp [hrv]

/-- Witness of `get_filepath_under_candidate_root`: a directive that is not temporary, the root
`/srv/files` and the file `reports/out.pdf`. -/
theorem get_filepath_under_candidate_root_witness :
    merge_under_root sampleMerge ∧
    ((0 : Int) = 0 ∨ ∃ q ∈ filesOnlyConf.paths, q.allowFileDelete ≠ 0) ∧
    ((ap_xsendfile_get_filepath sampleMerge (fun _ => none) sampleRequest filesOnlyConf
        "reports/out.pdf" 0 0 none).1 ≠ OK ∨
     ∃ p, (ap_xsendfile_get_filepath sampleMerge (fun _ => none) sampleRequest filesOnlyConf
        "reports/out.pdf" 0 0 none).2 = some p ∧
      ((∃ root ∈ filesOnlyConf.paths, lexicallyUnder root.path p) ∨
        ((0 : Int) = 0 ∧ ∃ root,
          ap_xsendfile_get_orginal_path (fun _ => none) sampleRequest = some root ∧
          lexicallyUnder root p))) :=
  ⟨sampleMerge_under_root, Or.inl rfl,
   get_filepath_under_candidate_root sampleMerge (fun _ => none) sampleRequest filesOnlyConf
     "reports/out.pdf" 0 0 none sampleMerge_under_root (Or.inl rfl)⟩

/-- Claim C1 fails as stated: for the request `sampleRequest`, the only configured root
`/srv/files` and the directive `x.txt` (not temporary), the merge being one that succeeds only
under the root it is given, `ap_xsendfile_get_filepath` returns `/var/www/app/x.txt`, which is
under the directory of the original request and under no configured root. -/
theorem get_filepath_outside_configured_roots :
    merge_under_root sampleMerge ∧
    ap_xsendfile_get_orginal_path (fun _ => none) sampleRequest = some "/var/www/app/" ∧
    ap_xsendfile_get_filepath sampleMerge (fun _ => none) sampleRequest filesOnlyConf
      "x.txt" 0 0 none = (OK, some "/var/www/app/x.txt") ∧
    ∀ root ∈ filesOnlyConf.paths, ¬ lexicallyUnder root.path "/var/www/app/x.txt" :=
  ⟨sampleMerge_under_root, by decide, by decide, by decide⟩

/-- Claim C2: for a temporary directive (`shouldDeleteFile` not 0) the candidate roots are the
configured roots alone, without the directory of the original request, and the value returned
is fixed by the roots that allow deletion: when the merge succeeds on one of them, the function
returns `OK` and the merge onto the first such root; when it succeeds on none of them and there
is such a root, the function fails and returns no path, whatever the merge does on the roots
that do not allow deletion; when no root allows deletion the merge is never called and the path
returned is none or the content `*path` had on entry. Moreover, when the loop stops at an index
inside the array, the root there allows deletion and the function returns the merge onto that
root; and the result does not depend on the request nor on what the merge does on a root that
does not allow deletion. -/
theorem get_filepath_temporary_only_delete_roots
    (merge : String → String → apr_status_t × String) (lookup : String → Option String)
    (r : request_rec) (conf : xsendfile_conf_t) (file : String) (sdf : Int)
    (rv0 : apr_status_t) (path0 : Option String) (htemp : sdf ≠ 0) :
    patharr lookup r conf sdf = conf.paths ∧
    (∀ q, (conf.paths.filter (fun q => decide (q.allowFileDelete ≠ 0))).find?
        (fun q => decide ((merge q.path file).1 = OK)) = some q →
      ap_xsendfile_get_filepath merge lookup r conf file sdf rv0 path0 =
        (OK, some (merge q.path file).2)) ∧
    ((conf.paths.filter (fun q => decide (q.allowFileDelete ≠ 0))).find?
        (fun q => decide ((merge q.path file).1 = OK)) = none →
      (∃ q ∈ conf.paths, q.allowFileDelete ≠ 0) →
      (ap_xsendfile_get_filepath merge lookup r conf file sdf rv0 path0).1 ≠ OK ∧
      (ap_xsendfile_get_filepath merge lookup r conf file sdf rv0 path0).2 = none) ∧
    ((∀ q ∈ conf.paths, q.allowFileDelete = 0) →
      ap_xsendfile_get_filepath merge lookup r conf file sdf rv0 path0 =
        if conf.paths = [] then (APR_EBADPATH, path0)
        else if rv0 ≠ OK then (rv0, none) else (rv0, path0)) ∧
    (∀ q, conf.paths[(filepath_final merge lookup r conf file sdf rv0 path0).i]? = some q →
      q.allowFileDelete ≠ 0 ∧
      ap_xsendfile_get_filepath merge lookup r conf file sdf rv0 path0 =
        (OK, some (merge q.path file).2)) ∧
    (∀ (merge2 : String → String → apr_status_t × String) (lookup2 : String → Option String)
       (r2 : request_rec),
      (∀ q ∈ conf.paths, q.allowFileDelete ≠ 0 → merge2 q.path file = merge q.path file) →
      ap_xsendfile_get_filepath merge2 lookup2 r2 conf file sdf rv0 path0 =
        ap_xsendfile_get_filepath merge lookup r conf file sdf rv0 path0) := by
  have hp := patharr_temporary lookup r conf sdf htemp
  have hfind := find_accepts_temporary merge file sdf htemp conf.paths
  refine ⟨hp, ?_, ?_, ?_, ?_, ?_⟩
  · intro q hq
    apply get_filepath_of_find_some
    rw [hp, hfind]
    exact hq
  · intro hnone hex
    rw [← hfind] at hnone
    obtain ⟨q, hq, hdel⟩ := hex
    obtain ⟨-, -, h3, -⟩ := filepath_loop_reject merge file sdf _ ⟨0, rv0, path0⟩ hnone
    have hrv : (filepath_final merge lookup r conf file sdf rv0 path0).rv ≠ OK := by
      rw [filepath_final, hp]
      exact h3 (Or.inr ⟨q, hq, fun hc => hdel hc.2⟩)
    have hne : ¬ (patharr lookup r conf sdf).length = 0 := by
      rw [hp]
      exact fun h => List.not_mem_nil q (by rw [← List.length_eq_zero.1 h]; exact hq)
    unfold ap_xsendfile_get_filepath
    rw [if_neg hne]
    simp [hrv]
  · intro hnodel
    by_cases hnil : conf.paths = []
    · rw [if_pos hnil]
      unfold ap_xsendfile_get_filepath
      rw [hp, hnil]
      rfl
    · rw [if_neg hnil]
      have hnone : conf.paths.find? (fun q => decide (accepts merge file sdf q)) = none := by
        rw [List.find?_eq_none]
        intro q hq
        simp only [decide_eq_true_eq]
        exact fun ha => ha.1 ⟨htemp, hnodel q hq⟩
      obtain ⟨-, h2, -, h4⟩ := filepath_loop_reject merge file sdf _ ⟨0, rv0, path0⟩ hnone
      have hrv := h4 (fun q hq ha => ha ⟨htemp, hnodel q hq⟩)
      unfold ap_xsendfile_get_filepath filepath_final
      rw [hp, if_neg (by simpa using hnil)]
      dsimp only
      rw [hrv, h2]
  · intro q hq
    cases hf : conf.paths.find? (fun q => decide (accepts merge file sdf q)) with
    | some q2 =>
      have hloop := filepath_loop_accept merge file sdf _ q2 ⟨0, rv0, path0⟩ hf
      have hfin : filepath_final merge lookup r conf file sdf rv0 path0 =
          { i := 0 + conf.paths.findIdx (fun q => decide (accepts merge file sdf q)),
            rv := OK, path := some (merge q2.path file).2 } := by
        rw [filepath_final, hp, hloop]
      have hlt : conf.paths.findIdx (fun q => decide (accepts merge file sdf q))
          < conf.paths.length := by
        have h := getElem_findIdx_of_find _ _ _ hf
        by_contra hc
        rw [List.getElem?_eq_none (Nat.le_of_not_lt hc)] at h
        cases h
      have hq2 := getElem_findIdx_of_find _ _ _ hf
      rw [hfin] at hq
      simp only [Nat.zero_add] at hq
      rw [hq2] at hq
      cases hq
      have hacc : accepts merge file sdf q := by simpa using List.find?_some hf
      refine ⟨fun h0 => hacc.1 ⟨htemp, h0⟩, ?_⟩
      unfold ap_xsendfile_get_filepath
      have hne : ¬ (patharr lookup r conf sdf).length = 0 := by
        rw [hp]; exact fun h => absurd hlt (by rw [h]; exact Nat.not_lt_zero _)
      rw [if_neg hne, hfin]
      simp
    | none =>
      obtain ⟨h1, -, -, -⟩ := filepath_loop_reject merge file sdf _ ⟨0, rv0, path0⟩ hf
      have hi : (filepath_final merge lookup r conf file sdf rv0 path0).i
          = conf.paths.length := by
        rw [filepath_final, hp, h1]; simp
      rw [hi] at hq
      simp at hq
  · intro merge2 lookup2 r2 hagree
    have hp2 := patharr_temporary lookup2 r2 conf sdf htemp
    have hc := filepath_loop_congr merge merge2 file sdf conf.paths
      (fun q hq ha => hagree q hq (fun h0 => ha ⟨htemp, h0⟩)) ⟨0, rv0, path0⟩
    unfold ap_xsendfile_get_filepath filepath_final
    rw [hp, hp2, hc]

/-- Witness of `get_filepath_temporary_only_delete_roots`: temporary directives on the roots
`/srv/files` (no deletion) and `/srv/tmp` (deletion allowed). The file `tmp/export.csv` exists
under both roots: the loop stops at index 1 and the path under `/srv/tmp` is returned. The file
`reports/out.pdf` exists under `/srv/files` only: the function fails and returns no path. -/
theorem get_filepath_temporary_only_delete_roots_witness :
    (1 : Int) ≠ 0 ∧
    (filepath_final sampleMerge (fun _ => none) sampleRequest mixedConf
      "tmp/export.csv" 1 0 none).i = 1 ∧
    (sampleMerge "/srv/files" "tmp/export.csv").1 = OK ∧
    ap_xsendfile_get_filepath sampleMerge (fun _ => none) sampleRequest mixedConf
      "tmp/export.csv" 1 0 none = (OK, some "/srv/tmp/tmp/export.csv") ∧
    (sampleMerge "/srv/files" "reports/out.pdf").1 = OK ∧
    (ap_xsendfile_get_filepath sampleMerge (fun _ => none) sampleRequest mixedConf
      "reports/out.pdf" 1 0 none).1 ≠ OK ∧
    (ap_xsendfile_get_filepath sampleMerge (fun _ => none) sampleRequest mixedConf
      "reports/out.pdf" 1 0 none).2 = none :=
  ⟨by decide, by decide, by decide,
   ((get_filepath_temporary_only_delete_roots sampleMerge (fun _ => none) sampleRequest
      mixedConf "tmp/export.csv" 1 0 none (by decide)).2.2.2.2.1
      { path := "/srv/tmp", allowFileDelete := 1 } (by decide)).2,
   by decide,
   ((get_filepath_temporary_only_delete_roots sampleMerge (fun _ => none) sampleRequest
      mixedConf "reports/out.pdf" 1 0 none (by decide)).2.2.1 (by decide) (by decide)).1,
   ((get_filepath_temporary_only_delete_roots sampleMerge (fun _ => none) sampleRequest
      mixedConf "reports/out.pdf" 1 0 none (by decide)).2.2.1 (by decide) (by decide)).2⟩

/-- Claim C3, what the code does: for a temporary directive and a non-empty list of roots none
of which allows deletion, the loop never calls the merge and the status returned by
`ap_xsendfile_get_filepath` is the content `rv0` the variable `rv` happened to have, with
`*path` left as it was when that content is `OK`. -/
theorem get_filepath_returns_unassigned_status
    (merge : String → String → apr_status_t × String) (lookup : String → Option String)
    (r : request_rec) (conf : xsendfile_conf_t) (file : String) (sdf : Int)
    (rv0 : apr_status_t) (path0 : Option String)
    (htemp : sdf ≠ 0) (hne : conf.paths ≠ [])
    (hnodel : ∀ q ∈ conf.paths, q.allowFileDelete = 0) :
    ap_xsendfile_get_filepath merge lookup r conf file sdf rv0 path0 =
      if rv0 ≠ OK then (rv0, none) else (rv0, path0) := by
  have hp := patharr_temporary lookup r conf sdf htemp
  have hnone : conf.paths.find? (fun q => decide (accepts merge file sdf q)) = none := by
    rw [List.find?_eq_none]
    intro q hq
    simp only [decide_eq_true_eq]
    exact fun ha => ha.1 ⟨htemp, hnodel q hq⟩
  obtain ⟨-, h2, -, h4⟩ := filepath_loop_reject merge file sdf _ ⟨0, rv0, path0⟩ hnone
  have hrv := h4 (fun q hq ha => ha ⟨htemp, hnodel q hq⟩)
  unfold ap_xsendfile_get_filepath filepath_final
  rw [hp, if_neg (by simpa using hne)]
  dsimp only
  rw [hrv, h2]

/-- Witness of `get_filepath_returns_unassigned_status`, at the failing input of claim C3: the
single root `/srv/files` without deletion, the temporary directive `tmp/export.csv`, and
`rv` holding 0: the function returns `OK` and no path. -/
theorem get_filepath_returns_unassigned_status_witness :
    (1 : Int) ≠ 0 ∧ filesOnlyConf.paths ≠ [] ∧
    (∀ q ∈ filesOnlyConf.paths, q.allowFileDelete = 0) ∧
    ap_xsendfile_get_filepath sampleMerge (fun _ => none) sampleRequest filesOnlyConf
      "tmp/export.csv" 1 0 none = (OK, none) :=
  ⟨by decide, by decide, by decide,
   get_filepath_returns_unassigned_status sampleMerge (fun _ => none) sampleRequest
     filesOnlyConf "tmp/export.csv" 1 0 none (by decide) (by decide) (by decide)⟩

theorem attempted_of_not_temporary (q : xsendfile_path_t) : attempted 0 q :=
  fun h => h.1 rfl

theorem get_filepath_of_find_none (merge : String → String → apr_status_t × String)
    (lookup : String → Option String) (r : request_rec) (conf : xsendfile_conf_t)
    (file : String) (sdf : Int) (rv0 : apr_status_t) (path0 : Option String)
    (hf : (patharr lookup r conf sdf).find? (fun q => decide (accepts merge file sdf q))
      = none)
    (hatt : ∀ q ∈ patharr lookup r conf sdf, attempted sdf q) :
    (ap_xsendfile_get_filepath merge lookup r conf file sdf rv0 path0).1 ≠ OK := by
  unfold ap_xsendfile_get_filepath
  by_cases hlen : (patharr lookup r conf sdf).length = 0
  · rw [if_pos hlen]; simp [APR_EBADPATH, OK]
  · rw [if_neg hlen]
    obtain ⟨-, -, h3, -⟩ := filepath_loop_reject merge file sdf _ ⟨0, rv0, path0⟩ hf
    obtain ⟨q, hq⟩ := List.exists_mem_of_length_pos (Nat.pos_of_ne_zero hlen)
    have hrv : (filepath_final merge lookup r conf file sdf rv0 path0).rv ≠ OK :=
      h3 (Or.inr ⟨q, hq, hatt q hq⟩)
    simp [hrv]

/-- Claim C10: for a directive that is not temporary (`shouldDeleteFile` is 0) the candidate
roots are the directory of the original request, when there is one, followed by the configured
roots in their order; the function returns the merge onto the first root of that list on which
the merge succeeds, whatever roots follow it; and it fails exactly when the list is empty or
the merge fails on every root of it. -/
theorem get_filepath_first_matching_root
    (merge : String → String → apr_status_t × String) (lookup : String → Option String)
    (r : request_rec) (conf : xsendfile_conf_t) (file : String)
    (rv0 : apr_status_t) (path0 : Option String) :
    patharr lookup r conf 0 =
      (ap_xsendfile_get_orginal_path lookup r).toList.map
        (fun root => { path := root, allowFileDelete := 0 }) ++ conf.paths ∧
    (∀ (before : List xsendfile_path_t) (q : xsendfile_path_t) (after : List xsendfile_path_t),
      patharr lookup r conf 0 = before ++ q :: after →
      (∀ x ∈ before, (merge x.path file).1 ≠ OK) →
      (merge q.path file).1 = OK →
      ap_xsendfile_get_filepath merge lookup r conf file 0 rv0 path0 =
        (OK, some (merge q.path file).2)) ∧
    ((ap_xsendfile_get_filepath merge lookup r conf file 0 rv0 path0).1 ≠ OK ↔
      (patharr lookup r conf 0 = [] ∨
        ∀ q ∈ patharr lookup r conf 0, (merge q.path file).1 ≠ OK)) := by
  refine ⟨?_, ?_, ?_⟩
  · unfold patharr
    cases ap_xsendfile_get_orginal_path lookup r <;> simp
  · intro before q after hsplit hbefore hq
    apply get_filepath_of_find_some
    rw [hsplit, List.find?_append]
    have hnone : before.find? (fun q => decide (accepts merge file 0 q)) = none := by
      rw [List.find?_eq_none]
      intro x hx
      simp only [decide_eq_true_eq]
      exact fun ha => hbefore x hx ha.2
    rw [hnone]
    have hacc : accepts merge file 0 q := ⟨attempted_of_not_temporary q, hq⟩
    simp [hacc]
  · constructor
    · intro hfail
      by_contra hc
      rw [not_or] at hc
      obtain ⟨-, hex⟩ := hc
      simp only [not_forall, not_not] at hex
      obtain ⟨q, hq, hok⟩ := hex
      cases hf : (patharr lookup r conf 0).find? (fun q => decide (accepts merge file 0 q)) with
      | some q2 =>
        rw [get_filepath_of_find_some merge lookup r conf file 0 rv0 path0 q2 hf] at hfail
        exact hfail rfl
      | none =>
        rw [List.find?_eq_none] at hf
        have := hf q hq
        simp only [decide_eq_true_eq] at this
        exact this ⟨attempted_of_not_temporary q, hok⟩
    · rintro (hnil | hall)
      · unfold ap_xsendfile_get_filepath
        rw [hnil]
        simp [APR_EBADPATH, OK]
      · apply get_filepath_of_find_none
        · rw [List.find?_eq_none]
          intro x hx
          simp only [decide_eq_true_eq]
          exact fun ha => hall x hx ha.2
        · exact fun q _ => attempted_of_not_temporary q

/-! ## Selection of the directive -/

/-- Claim C5, as the code has it: the directive the filter selects is the first slot, in the
order primary `X-Sendfile`, error-path `X-Sendfile`, primary `X-Sendfile-Temporary`, error-path
`X-Sendfile-Temporary`, that holds a value which is not the empty string, and
`shouldDeleteFile` is then 1 exactly for the two temporary slots; a permanent header with a
non-empty value in either map gives `shouldDeleteFile` 0; when no slot holds a non-empty value
no directive is selected. -/
theorem select_directive_first_nonempty_slot (r : request_rec) :
    (∀ s, (directive_slots r).find? (fun s => !no_value s.1) = some s →
      select_directive r = s) ∧
    ((directive_slots r).find? (fun s => !no_value s.1) = none →
      no_value (select_directive r).1 = true) ∧
    ((no_value (apr_table_get r.headers_out AP_XSENDFILE_HEADER) = false ∨
      no_value (apr_table_get r.err_headers_out AP_XSENDFILE_HEADER) = false) →
      (select_directive r).2 = 0) := by
  unfold directive_slots select_directive
  cases h1 : no_value (apr_table_get r.headers_out AP_XSENDFILE_HEADER) <;>
  cases h2 : no_value (apr_table_get r.err_headers_out AP_XSENDFILE_HEADER) <;>
  cases h3 : no_value (apr_table_get r.headers_out AP_XSENDFILETEMPORARY_HEADER) <;>
  cases h4 : no_value (apr_table_get r.err_headers_out AP_XSENDFILETEMPORARY_HEADER) <;>
  simp [List.find?, h1, h2, h3, h4]

/-- Claim C5 fails as stated: in `emptyPermanentRequest` the first slot, primary `X-Sendfile`,
holds a value (the empty string), yet the filter selects the error-path
`X-Sendfile-Temporary` header and sets `shouldDeleteFile`. -/
theorem select_directive_skips_empty_permanent :
    apr_table_get emptyPermanentRequest.headers_out AP_XSENDFILE_HEADER = some "" ∧
    select_directive emptyPermanentRequest = (some "tmp/export.csv", 1) := by
  decide

/-! ## Splitting of the file into buckets -/

theorem consecutive_append (bs : List file_bucket) (b : file_bucket) :
    ∀ first last : Int, consecutive first bs b.start → 0 ≤ b.length →
      b.start + b.length = last → consecutive first (bs ++ [b]) last := by
  induction bs with
  | nil =>
    intro first last h hlen hlast
    simp only [consecutive] at h
    simp only [List.nil_append, consecutive]
    exact ⟨h.symm, hlen, by rw [h]; exact hlast⟩
  | cons c cs ih =>
    intro first last h hlen hlast
    simp only [consecutive] at h
    simp only [List.cons_append, consecutive]
    exact ⟨h.1, h.2.1, ih _ _ h.2.2 hlen hlast⟩

theorem split_loop_spec (P : Platform) (hmax : 0 < P.AP_MAX_SENDFILE) :
    ∀ (fuel : Nat) (e : file_bucket) (fsize : Int) (bb : List apr_bucket),
      fsize ≤ fuel → 0 < fsize → e.length = P.AP_MAX_SENDFILE →
      ∃ (segs : List file_bucket) (rem stop : Int),
        split_loop P fuel e fsize bb
          = some ({ e with start := stop }, rem, bb ++ segs.map apr_bucket.file) ∧
        consecutive e.start segs stop ∧
        (∀ b ∈ segs, b.length = P.AP_MAX_SENDFILE ∧ b.fd = e.fd) ∧
        stop + rem = e.start + fsize ∧ 0 < rem ∧ rem ≤ P.AP_MAX_SENDFILE := by
  intro fuel
  induction fuel with
  | zero =>
    intro e fsize bb hfuel hpos _
    simp only [Nat.cast_zero] at hfuel
    omega
  | succ n ih =>
    intro e fsize bb hfuel hpos hlen
    by_cases hgt : fsize > P.AP_MAX_SENDFILE
    · have hfuel2 : fsize - P.AP_MAX_SENDFILE ≤ (n : Int) := by
        push_cast at hfuel
        omega
      obtain ⟨segs, rem, stop, hrun, hcons, hall, hsum, hrem0, hrem1⟩ :=
        ih { e with start := e.start + P.AP_MAX_SENDFILE } (fsize - P.AP_MAX_SENDFILE)
          (bb ++ [apr_bucket.file e]) hfuel2 (by omega) hlen
      refine ⟨e :: segs, rem, stop, ?_, ?_, ?_, ?_, hrem0, hrem1⟩
      · rw [split_loop, if_pos hgt, hrun]
        simp
      · show e.start = e.start ∧ 0 ≤ e.length ∧ consecutive (e.start + e.length) segs stop
        refine ⟨rfl, by omega, ?_⟩
        rw [hlen]
        exact hcons
      · intro b hb
        rcases List.mem_cons.1 hb with rfl | hb
        · exact ⟨hlen, rfl⟩
        · exact hall b hb
      · simp only at hsum
        omega
    · refine ⟨[], fsize, e.start, ?_, ?_, ?_, rfl, hpos, by omega⟩
      · rw [split_loop, if_neg hgt]
        simp
      · simp [consecutive]
      · intro b hb
        cases hb

theorem to_apr_size_t_of_fits (P : Platform) (x : Int) (h0 : 0 ≤ x)
    (h1 : x < 2 ^ (8 * P.sizeof_apr_size_t)) : to_apr_size_t P x = x := by
  unfold to_apr_size_t
  exact Int.emod_eq_of_lt h0 h1

theorem map_disable_mmap (segs : List file_bucket) :
    (segs.map apr_bucket.file).map disable_mmap =
      (segs.map (fun b => { b with can_mmap := false })).map apr_bucket.file := by
  induction segs with
  | nil => rfl
  | cons b bs ih =>
    simp only [List.map_cons, disable_mmap, ih]

theorem consecutive_map_can_mmap (segs : List file_bucket) :
    ∀ first last : Int, consecutive first segs last →
      consecutive first (segs.map (fun b => { b with can_mmap := false })) last := by
  induction segs with
  | nil => intro first last h; exact h
  | cons b bs ih =>
    intro first last h
    simp only [consecutive] at h
    simp only [List.map_cons, consecutive]
    exact ⟨h.1, h.2.1, ih _ _ h.2.2⟩

theorem file_buckets_split (P : Platform) (coreconf : core_dir_config)
    (fd : Option String) (size : Int)
    (hwide : P.sizeof_apr_off_t > P.sizeof_apr_size_t)
    (hmax : 0 < P.AP_MAX_SENDFILE)
    (hfits : P.AP_MAX_SENDFILE < 2 ^ (8 * P.sizeof_apr_size_t))
    (hbig : size > P.AP_MAX_SENDFILE) :
    ∃ segs : List file_bucket,
      file_buckets P coreconf fd size = some (segs.map apr_bucket.file) ∧
      consecutive 0 segs size ∧
      (∀ b ∈ segs, 0 < b.length ∧ b.length ≤ P.AP_MAX_SENDFILE ∧ b.fd = fd) := by
  obtain ⟨segs, rem, stop, hrun, hcons, hall, hsum, hrem0, hrem1⟩ :=
    split_loop_spec P hmax size.toNat (apr_bucket_file_create fd 0 P.AP_MAX_SENDFILE) size []
      (by rw [Int.toNat_of_nonneg (by omega)]) (by omega) rfl
  have hcast : to_apr_size_t P rem = rem :=
    to_apr_size_t_of_fits P rem (by omega) (by omega)
  simp only [apr_bucket_file_create, zero_add] at hcons hsum hall
  have hc : consecutive 0
      (segs ++ [file_bucket.mk fd stop rem true]) size :=
    consecutive_append _ _ _ _ hcons (by simp; omega) (by simpa using hsum)
  have hp : ∀ b ∈ segs ++ [file_bucket.mk fd stop rem true],
      0 < b.length ∧ b.length ≤ P.AP_MAX_SENDFILE ∧ b.fd = fd := by
    intro b hb
    rcases List.mem_append.1 hb with hb | hb
    · rw [(hall b hb).1]; exact ⟨hmax, le_refl _, (hall b hb).2⟩
    · simp only [List.mem_singleton] at hb
      rw [hb]; exact ⟨hrem0, hrem1, rfl⟩
  have hraw : segs.map apr_bucket.file
      ++ [apr_bucket.file (file_bucket.mk fd stop rem true)]
      = (segs ++ [file_bucket.mk fd stop rem true]).map
          apr_bucket.file := by
    simp
  by_cases hm : (P.APR_HAS_MMAP = true ∧ coreconf.enable_mmap_on = true)
  · refine ⟨(segs ++ [file_bucket.mk fd stop rem true]).map
        (fun b : file_bucket => { b with can_mmap := false }), ?_, consecutive_map_can_mmap _ _ _ hc, ?_⟩
    · unfold file_buckets
      rw [if_pos ⟨hwide, hbig⟩, hrun]
      simp only [Option.map_some', hcast, apr_bucket_file_create, List.nil_append, if_pos hm]
      rw [hraw, map_disable_mmap]
    · intro b hb
      obtain ⟨c, hc2, rfl⟩ := List.mem_map.1 hb
      exact hp c hc2
  · refine ⟨segs ++ [file_bucket.mk fd stop rem true], ?_, hc, hp⟩
    unfold file_buckets
    rw [if_pos ⟨hwide, hbig⟩, hrun]
    simp only [Option.map_some', hcast, apr_bucket_file_create, List.nil_append, if_neg hm]
    rw [hraw]

theorem file_buckets_single (P : Platform) (coreconf : core_dir_config)
    (fd : Option String) (size : Int)
    (h : ¬ (P.sizeof_apr_off_t > P.sizeof_apr_size_t ∧ size > P.AP_MAX_SENDFILE)) :
    file_buckets P coreconf fd size =
      some [apr_bucket.file
        { fd := fd, start := 0, length := to_apr_size_t P size,
          can_mmap := !(P.APR_HAS_MMAP && coreconf.enable_mmap_on) }] := by
  unfold file_buckets
  rw [if_neg h]
  by_cases hm : (P.APR_HAS_MMAP = true ∧ coreconf.enable_mmap_on = true)
  · simp [hm, apr_bucket_file_create, disable_mmap]
  · have hm2 : (P.APR_HAS_MMAP && coreconf.enable_mmap_on) = false := by
      simpa using hm
    simp [hm, hm2, apr_bucket_file_create]

theorem file_buckets_total (P : Platform) (coreconf : core_dir_config)
    (fd : Option String) (size : Int) (hmax : 0 < P.AP_MAX_SENDFILE) :
    ∃ bb, file_buckets P coreconf fd size = some bb := by
  by_cases h : P.sizeof_apr_off_t > P.sizeof_apr_size_t ∧ size > P.AP_MAX_SENDFILE
  · obtain ⟨segs, rem, stop, hrun, -⟩ :=
      split_loop_spec P hmax size.toNat (apr_bucket_file_create fd 0 P.AP_MAX_SENDFILE) size []
        (by rw [Int.toNat_of_nonneg (by omega)]) (by omega) rfl
    unfold file_buckets
    rw [if_pos h, hrun]
    simp
  · exact ⟨_, file_buckets_single P coreconf fd size h⟩

/-- Claim C9: on a platform where `apr_off_t` is wider than `apr_size_t`, for a file larger than
`AP_MAX_SENDFILE` (a positive constant that fits an `apr_size_t`), the splitting loop ends
within the iterations it is given and the brigade holds file buckets only, whose ranges are
consecutive from offset 0 to `size`, each of a length greater than 0 and at most
`AP_MAX_SENDFILE`. -/
theorem file_buckets_split_covers_file (P : Platform) (coreconf : core_dir_config)
    (fd : Option String) (size : Int)
    (hwide : P.sizeof_apr_off_t > P.sizeof_apr_size_t)
    (hmax : 0 < P.AP_MAX_SENDFILE)
    (hfits : P.AP_MAX_SENDFILE < 2 ^ (8 * P.sizeof_apr_size_t))
    (hbig : size > P.AP_MAX_SENDFILE) :
    ∃ segs : List file_bucket,
      file_buckets P coreconf fd size = some (segs.map apr_bucket.file) ∧
      consecutive 0 segs size ∧
      (∀ b ∈ segs, 0 < b.length ∧ b.length ≤ P.AP_MAX_SENDFILE) := by
  obtain ⟨segs, h1, h2, h3⟩ := file_buckets_split P coreconf fd size hwide hmax hfits hbig
  exact ⟨segs, h1, h2, fun b hb => ⟨(h3 b hb).1, (h3 b hb).2.1⟩⟩

/-- Witness of `file_buckets_split_covers_file`: a file of 10 bytes on `samplePlatform`, whose
segment limit is 4 bytes. -/
theorem file_buckets_split_covers_file_witness :
    samplePlatform.sizeof_apr_off_t > samplePlatform.sizeof_apr_size_t ∧
    0 < samplePlatform.AP_MAX_SENDFILE ∧
    samplePlatform.AP_MAX_SENDFILE < 2 ^ (8 * samplePlatform.sizeof_apr_size_t) ∧
    (10 : Int) > samplePlatform.AP_MAX_SENDFILE ∧
    file_buckets samplePlatform ⟨false, false⟩ (some "/srv/files/reports/out.pdf") 10 =
      some [apr_bucket.file ⟨some "/srv/files/reports/out.pdf", 0, 4, true⟩,
            apr_bucket.file ⟨some "/srv/files/reports/out.pdf", 4, 4, true⟩,
            apr_bucket.file ⟨some "/srv/files/reports/out.pdf", 8, 2, true⟩] ∧
    ∃ segs : List file_bucket,
      file_buckets samplePlatform ⟨false, false⟩ (some "/srv/files/reports/out.pdf") 10
        = some (segs.map apr_bucket.file) ∧
      consecutive 0 segs 10 ∧
      (∀ b ∈ segs, 0 < b.length ∧ b.length ≤ samplePlatform.AP_MAX_SENDFILE) :=
  ⟨by decide, by decide, by decide, by decide, by decide,
   file_buckets_split_covers_file samplePlatform ⟨false, false⟩
     (some "/srv/files/reports/out.pdf") 10 (by decide) (by decide) (by decide) (by decide)⟩

theorem file_buckets_covers (P : Platform) (coreconf : core_dir_config)
    (fd : Option String) (size : Int)
    (hmax : 0 < P.AP_MAX_SENDFILE)
    (hfits : P.AP_MAX_SENDFILE < 2 ^ (8 * P.sizeof_apr_size_t))
    (hsize0 : 0 ≤ size) (hsize1 : size < 2 ^ (8 * P.sizeof_apr_off_t - 1)) :
    ∃ segs : List file_bucket,
      file_buckets P coreconf fd size = some (segs.map apr_bucket.file) ∧
      consecutive 0 segs size ∧ (∀ b ∈ segs, b.fd = fd) := by
  by_cases h : P.sizeof_apr_off_t > P.sizeof_apr_size_t ∧ size > P.AP_MAX_SENDFILE
  · obtain ⟨segs, h1, h2, h3⟩ := file_buckets_split P coreconf fd size h.1 hmax hfits h.2
    exact ⟨segs, h1, h2, fun b hb => (h3 b hb).2.2⟩
  · have hlt : size < 2 ^ (8 * P.sizeof_apr_size_t) := by
      by_cases hw : P.sizeof_apr_off_t > P.sizeof_apr_size_t
      · have : ¬ size > P.AP_MAX_SENDFILE := fun hc => h ⟨hw, hc⟩
        omega
      · have hle : 8 * P.sizeof_apr_off_t - 1 ≤ 8 * P.sizeof_apr_size_t := by omega
        have hpow : (2 : Int) ^ (8 * P.sizeof_apr_off_t - 1) ≤ 2 ^ (8 * P.sizeof_apr_size_t) :=
          pow_le_pow_right₀ (by norm_num) hle
        omega
    refine ⟨[{ fd := fd, start := 0, length := size,
               can_mmap := !(P.APR_HAS_MMAP && coreconf.enable_mmap_on) }], ?_, ?_, ?_⟩
    · rw [file_buckets_single P coreconf fd size h, to_apr_size_t_of_fits P size hsize0 hlt]
      rfl
    · simp [consecutive, hsize0]
    · intro b hb
      simp only [List.mem_singleton] at hb
      rw [hb]

/-! ## The conditional request and the brigade passed on -/

/-- Claim C8: once the file is located (resolved, opened and a regular file, of a size that is
an `apr_off_t` value), the filter ends as follows. When `ap_meets_conditions` returns a status
`s` other than `OK`, the filter returns with the status of the response equal to `s` (the other
fields of the request are as the metadata step left them), the file is closed and the brigade
passed on is the end-of-stream bucket alone. When it returns `OK`, the brigade passed on is
file buckets on the opened file whose ranges are consecutive from 0 to the size of the file,
followed by the end-of-stream bucket. In both cases no bucket of the incoming brigade is
passed on. -/
theorem filter_conditional_outcome (H : Host) (P : Platform) (coreconf : core_dir_config)
    (sconf dconf : xsendfile_conf_t) (rv0 : apr_status_t) (r : request_rec)
    (bin : List apr_bucket) (loc : located)
    (hmax : 0 < P.AP_MAX_SENDFILE)
    (hfits : P.AP_MAX_SENDFILE < 2 ^ (8 * P.sizeof_apr_size_t))
    (hsize0 : 0 ≤ loc.finfo.size)
    (hsize1 : loc.finfo.size < 2 ^ (8 * P.sizeof_apr_off_t - 1))
    (hloc : xsendfile_locate H P coreconf (xsendfile_config_merge sconf dconf) rv0 r bin
      = Sum.inr loc) :
    (H.ap_meets_conditions
        (xsendfile_metadata H (xsendfile_config_merge sconf dconf) loc.r loc.finfo) ≠ OK →
      ∃ res : filter_result,
        ap_xsendfile_output_filter H P coreconf sconf dconf rv0 r bin = some res ∧
        res.r.status = H.ap_meets_conditions
          (xsendfile_metadata H (xsendfile_config_merge sconf dconf) loc.r loc.finfo) ∧
        res.r =
          { (xsendfile_metadata H (xsendfile_config_merge sconf dconf) loc.r loc.finfo) with
            status := H.ap_meets_conditions
              (xsendfile_metadata H (xsendfile_config_merge sconf dconf) loc.r loc.finfo) } ∧
        res.outcome = Outcome.passed [apr_bucket.eos] ∧
        res.file = file_state.closed loc.translated loc.flags) ∧
    (H.ap_meets_conditions
        (xsendfile_metadata H (xsendfile_config_merge sconf dconf) loc.r loc.finfo) = OK →
      ∃ segs : List file_bucket,
        ap_xsendfile_output_filter H P coreconf sconf dconf rv0 r bin =
          some { r := xsendfile_metadata H (xsendfile_config_merge sconf dconf) loc.r loc.finfo,
                 outcome := Outcome.passed (segs.map apr_bucket.file ++ [apr_bucket.eos]),
                 file := file_state.opened loc.translated loc.flags } ∧
        (∀ b ∈ segs, b.fd = loc.translated) ∧
        consecutive 0 segs loc.finfo.size) := by
  constructor
  · intro hs
    have heq : ap_xsendfile_output_filter H P coreconf sconf dconf rv0 r bin =
        some { r := set_status
                      (xsendfile_metadata H (xsendfile_config_merge sconf dconf) loc.r loc.finfo)
                      (H.ap_meets_conditions
                        (xsendfile_metadata H (xsendfile_config_merge sconf dconf) loc.r
                          loc.finfo)),
               outcome := Outcome.passed [apr_bucket.eos],
               file := file_state.closed loc.translated loc.flags } := by
      unfold ap_xsendfile_output_filter
      simp only [hloc]
      unfold xsendfile_emit
      simp only [hs, ne_eq, not_false_eq_true, if_true]
    exact ⟨_, heq, rfl, rfl, rfl, rfl⟩
  · intro hs
    obtain ⟨segs, h1, h2, h3⟩ :=
      file_buckets_covers P coreconf loc.translated loc.finfo.size hmax hfits hsize0 hsize1
    refine ⟨segs, ?_, h3, h2⟩
    unfold ap_xsendfile_output_filter
    simp only [hloc]
    unfold xsendfile_emit
    simp only [hs, ne_eq, not_true_eq_false, if_false, h1, Option.map_some']

/-- Witness of `filter_conditional_outcome`: the response `reportRequest` on the sample host,
whose file has 10 bytes, with `ap_meets_conditions` returning 304: the status of the response,
which was 200, is 304 when the filter returns. -/
theorem filter_conditional_outcome_witness :
    0 < samplePlatform.AP_MAX_SENDFILE ∧
    samplePlatform.AP_MAX_SENDFILE < 2 ^ (8 * samplePlatform.sizeof_apr_size_t) ∧
    0 ≤ reportLocated.finfo.size ∧
    reportLocated.finfo.size < 2 ^ (8 * samplePlatform.sizeof_apr_off_t - 1) ∧
    xsendfile_locate (sampleHost 304) samplePlatform ⟨false, false⟩
      (xsendfile_config_merge filesOnlyConf filesOnlyConf) 0 reportRequest
      [apr_bucket.body "generated"] = Sum.inr reportLocated ∧
    (sampleHost 304).ap_meets_conditions
      (xsendfile_metadata (sampleHost 304) (xsendfile_config_merge filesOnlyConf filesOnlyConf)
        reportLocated.r reportLocated.finfo) ≠ OK ∧
    reportRequest.status = 200 ∧
    (ap_xsendfile_output_filter (sampleHost 304) samplePlatform ⟨false, false⟩ filesOnlyConf
      filesOnlyConf 0 reportRequest [apr_bucket.body "generated"]).map
      (fun res => (res.r.status, res.outcome, res.file)) =
      some (304, Outcome.passed [apr_bucket.eos],
        file_state.closed (some "/srv/files/reports/out.pdf") ⟨false, true⟩) ∧
    ∃ res : filter_result,
      ap_xsendfile_output_filter (sampleHost 304) samplePlatform ⟨false, false⟩ filesOnlyConf
        filesOnlyConf 0 reportRequest [apr_bucket.body "generated"] = some res ∧
      res.r.status = 304 ∧
      res.r =
        { (xsendfile_metadata (sampleHost 304)
            (xsendfile_config_merge filesOnlyConf filesOnlyConf) reportLocated.r
            reportLocated.finfo) with status := 304 } ∧
      res.outcome = Outcome.passed [apr_bucket.eos] ∧
      res.file = file_state.closed reportLocated.translated reportLocated.flags :=
  ⟨by decide, by decide, by decide, by decide, by decide, by decide, by decide, by decide,
   (filter_conditional_outcome (sampleHost 304) samplePlatform ⟨false, false⟩ filesOnlyConf
      filesOnlyConf 0 reportRequest [apr_bucket.body "generated"] reportLocated
      (by decide) (by decide) (by decide) (by decide) (by decide)).1 (by decide)⟩

/-! ## Header tables: lemmas -/

theorem mem_apr_table_unset (t : apr_table_t) (key : String) (e : String × String) :
    e ∈ apr_table_unset t key ↔ e ∈ t ∧ strcaseeq e.1 key = false := by
  unfold apr_table_unset
  simp [List.mem_filter]

theorem apr_table_get_eq_none (t : apr_table_t) (key : String) :
    apr_table_get t key = none ↔ ∀ e ∈ t, strcaseeq e.1 key = false := by
  unfold apr_table_get
  simp [List.find?_eq_none]

theorem apr_table_get_unset_self (t : apr_table_t) (key : String) :
    apr_table_get (apr_table_unset t key) key = none := by
  rw [apr_table_get_eq_none]
  intro e he
  exact ((mem_apr_table_unset t key e).1 he).2

theorem apr_table_get_unset_of_none (t : apr_table_t) (key key2 : String)
    (h : apr_table_get t key = none) : apr_table_get (apr_table_unset t key2) key = none := by
  rw [apr_table_get_eq_none] at h ⊢
  intro e he
  exact h e ((mem_apr_table_unset t key2 e).1 he).1

theorem key_of_mem_apr_table_setn (key val : String) :
    ∀ (t : apr_table_t) (e : String × String), e ∈ apr_table_setn t key val →
      e.1 = key ∨ ∃ e2 ∈ t, e.1 = e2.1 := by
  intro t
  induction t with
  | nil =>
    intro e he
    simp only [apr_table_setn, List.mem_singleton] at he
    left; rw [he]
  | cons x xs ih =>
    intro e he
    by_cases hx : strcaseeq x.1 key = true
    · rw [apr_table_setn, if_pos hx] at he
      rcases List.mem_cons.1 he with rfl | he
      · right; exact ⟨x, List.mem_cons_self _ _, rfl⟩
      · right
        exact ⟨e, List.mem_cons_of_mem _ ((mem_apr_table_unset xs key e).1 he).1, rfl⟩
    · rw [apr_table_setn, if_neg hx] at he
      rcases List.mem_cons.1 he with rfl | he
      · right; exact ⟨e, List.mem_cons_self _ _, rfl⟩
      · rcases ih e he with h | ⟨e2, he2, h⟩
        · left; exact h
        · right; exact ⟨e2, List.mem_cons_of_mem _ he2, h⟩

theorem no_directive_unset (t : apr_table_t) (key : String) (h : no_directive t) :
    no_directive (apr_table_unset t key) :=
  fun e he => h e ((mem_apr_table_unset t key e).1 he).1

theorem no_directive_setn (t : apr_table_t) (key val : String) (h : no_directive t)
    (h1 : strcaseeq key AP_XSENDFILE_HEADER = false)
    (h2 : strcaseeq key AP_XSENDFILETEMPORARY_HEADER = false) :
    no_directive (apr_table_setn t key val) := by
  intro e he
  rcases key_of_mem_apr_table_setn key val t e he with hk | ⟨e2, he2, hk⟩
  · rw [hk]; exact ⟨h1, h2⟩
  · rw [hk]; exact h e2 he2

theorem no_directive_removed (t : apr_table_t) :
    no_directive
      (apr_table_unset (apr_table_unset t AP_XSENDFILE_HEADER) AP_XSENDFILETEMPORARY_HEADER) := by
  intro e he
  have h2 := (mem_apr_table_unset _ _ e).1 he
  have h1 := (mem_apr_table_unset _ _ e).1 h2.1
  exact ⟨h1.2, h2.2⟩

@[simp] theorem ap_update_mtime_headers_out (r : request_rec) (t : Int) :
    (ap_update_mtime r t).headers_out = r.headers_out := by
  unfold ap_update_mtime; split <;> rfl

@[simp] theorem ap_update_mtime_err_headers_out (r : request_rec) (t : Int) :
    (ap_update_mtime r t).err_headers_out = r.err_headers_out := by
  unfold ap_update_mtime; split <;> rfl

@[simp] theorem ap_set_last_modified_err_headers_out (H : Host) (r : request_rec) :
    (ap_set_last_modified H r).err_headers_out = r.err_headers_out := by
  unfold ap_set_last_modified; split <;> rfl

theorem ap_set_last_modified_no_directive (H : Host) (r : request_rec)
    (h : no_directive r.headers_out) : no_directive (ap_set_last_modified H r).headers_out := by
  unfold ap_set_last_modified
  split
  · exact no_directive_setn _ _ _ h (by decide) (by decide)
  · exact h

theorem last_modified_step_no_directive (H : Host) (conf : xsendfile_conf_t)
    (r : request_rec) (finfo : apr_finfo_t) (h1 : no_directive r.headers_out)
    (h2 : no_directive r.err_headers_out) :
    no_directive (last_modified_step H conf r finfo).headers_out ∧
    no_directive (last_modified_step H conf r finfo).err_headers_out := by
  unfold last_modified_step
  split_ifs
  · constructor
    · apply ap_set_last_modified_no_directive
      simpa using h1
    · simp only [ap_set_last_modified_err_headers_out, ap_update_mtime_err_headers_out]
      exact no_directive_unset _ _ h2
  · exact ⟨h1, h2⟩

theorem etag_step_no_directive (H : Host) (conf : xsendfile_conf_t)
    (r : request_rec) (h1 : no_directive r.headers_out)
    (h2 : no_directive r.err_headers_out) :
    no_directive (etag_step H conf r).headers_out ∧
    no_directive (etag_step H conf r).err_headers_out := by
  unfold etag_step
  split_ifs
  · exact ⟨no_directive_setn _ _ _ h1 (by decide) (by decide), no_directive_unset _ _ h2⟩
  · exact ⟨h1, h2⟩

/-- The headers of the request after lines 505 to 536 hold no directive when they held none
before. -/
theorem xsendfile_metadata_no_directive (H : Host) (conf : xsendfile_conf_t) (r : request_rec)
    (finfo : apr_finfo_t) (h1 : no_directive r.headers_out)
    (h2 : no_directive r.err_headers_out) :
    no_directive (xsendfile_metadata H conf r finfo).headers_out ∧
    no_directive (xsendfile_metadata H conf r finfo).err_headers_out := by
  have hl := last_modified_step_no_directive H conf (splice_finfo r finfo) finfo h1 h2
  have he := etag_step_no_directive H conf _ hl.1 hl.2
  exact ⟨no_directive_setn _ _ _ he.1 (by decide) (by decide), he.2⟩

theorem clean_removed (r : request_rec) : clean (remove_directive_headers r) :=
  ⟨no_directive_removed _, no_directive_removed _⟩

theorem clean_drop_body_headers (r : request_rec) (h : clean r) : clean (drop_body_headers r) :=
  ⟨no_directive_unset _ _ (no_directive_unset _ _ h.1),
   no_directive_unset _ _ (no_directive_unset _ _ h.2)⟩

theorem xsendfile_locate_clean_aux (H : Host) (P : Platform) (coreconf : core_dir_config)
    (conf : xsendfile_conf_t) (rv0 : apr_status_t) (r : request_rec) (bin : List apr_bucket)
    (hgate : ¬ request_skipped r) :
    clean (Sum.elim (fun res : filter_result => res.r) (fun loc : located => loc.r)
      (xsendfile_locate H P coreconf conf rv0 r bin)) := by
  have h1 := clean_removed r
  have h2 := clean_drop_body_headers _ h1
  unfold xsendfile_locate
  rw [if_neg hgate]
  dsimp only
  split_ifs <;> first | exact h1 | exact h2

theorem xsendfile_locate_clean (H : Host) (P : Platform) (coreconf : core_dir_config)
    (conf : xsendfile_conf_t) (rv0 : apr_status_t) (r : request_rec) (bin : List apr_bucket)
    (hgate : ¬ request_skipped r) :
    (∀ res, xsendfile_locate H P coreconf conf rv0 r bin = Sum.inl res → clean res.r) ∧
    (∀ loc, xsendfile_locate H P coreconf conf rv0 r bin = Sum.inr loc → clean loc.r) := by
  have h := xsendfile_locate_clean_aux H P coreconf conf rv0 r bin hgate
  constructor
  · intro res hres
    rw [hres] at h
    exact h
  · intro loc hloc
    rw [hloc] at h
    exact h

/-! ## Removal of the directive headers -/

/-- Claim C6, as the code has it: a response the filter does not process (status other than
200, sub-request, or default handler) is passed on as it is, directive headers included; for
every other response, whatever the outcome, the filter returns and neither header map of the
request has a directive entry afterwards. The constant `AP_MAX_SENDFILE` is taken positive. -/
theorem filter_removes_directive_headers (H : Host) (P : Platform) (coreconf : core_dir_config)
    (sconf dconf : xsendfile_conf_t) (rv0 : apr_status_t) (r : request_rec)
    (bin : List apr_bucket) (hmax : 0 < P.AP_MAX_SENDFILE) :
    (request_skipped r →
      ap_xsendfile_output_filter H P coreconf sconf dconf rv0 r bin =
        some { r := r, outcome := Outcome.passed bin, file := file_state.not_opened }) ∧
    (¬ request_skipped r →
      ∃ res, ap_xsendfile_output_filter H P coreconf sconf dconf rv0 r bin = some res ∧
        no_directive res.r.headers_out ∧ no_directive res.r.err_headers_out) := by
  constructor
  · intro hskip
    unfold ap_xsendfile_output_filter xsendfile_locate
    simp only [if_pos hskip]
  · intro hgate
    obtain ⟨hl, hr⟩ := xsendfile_locate_clean H P coreconf (xsendfile_config_merge sconf dconf)
      rv0 r bin hgate
    unfold ap_xsendfile_output_filter
    dsimp only
    cases hloc : xsendfile_locate H P coreconf (xsendfile_config_merge sconf dconf) rv0 r bin with
    | inl res => exact ⟨res, rfl, hl res hloc⟩
    | inr loc =>
      have hc := hr loc hloc
      have hm := xsendfile_metadata_no_directive H (xsendfile_config_merge sconf dconf) loc.r
        loc.finfo hc.1 hc.2
      dsimp only
      unfold xsendfile_emit
      by_cases hs : H.ap_meets_conditions
          (xsendfile_metadata H (xsendfile_config_merge sconf dconf) loc.r loc.finfo) ≠ OK
      · rw [if_pos hs]
        exact ⟨_, rfl, hm⟩
      · obtain ⟨bb, hbb⟩ := file_buckets_total P coreconf loc.translated loc.finfo.size hmax
        rw [if_neg hs, hbb]
        exact ⟨_, rfl, hm⟩

/-- Witness of `filter_removes_directive_headers`: the response `notFoundRequest`, of status
404, leaves the filter with its `X-Sendfile` header. -/
theorem filter_removes_directive_headers_witness :
    0 < samplePlatform.AP_MAX_SENDFILE ∧ request_skipped notFoundRequest ∧
    ap_xsendfile_output_filter (sampleHost 0) samplePlatform ⟨false, false⟩ filesOnlyConf
      filesOnlyConf 0 notFoundRequest [apr_bucket.body "not found"] =
      some { r := notFoundRequest, outcome := Outcome.passed [apr_bucket.body "not found"],
             file := file_state.not_opened } ∧
    ¬ request_skipped reportRequest ∧
    ∃ res, ap_xsendfile_output_filter (sampleHost 0) samplePlatform ⟨false, false⟩ filesOnlyConf
      filesOnlyConf 0 reportRequest [apr_bucket.body "generated"] = some res ∧
      no_directive res.r.headers_out ∧ no_directive res.r.err_headers_out :=
  ⟨by decide, by decide,
   (filter_removes_directive_headers (sampleHost 0) samplePlatform ⟨false, false⟩ filesOnlyConf
      filesOnlyConf 0 notFoundRequest [apr_bucket.body "not found"] (by decide)).1 (by decide),
   by decide,
   (filter_removes_directive_headers (sampleHost 0) samplePlatform ⟨false, false⟩ filesOnlyConf
      filesOnlyConf 0 reportRequest [apr_bucket.body "generated"] (by decide)).2 (by decide)⟩

/-- Claim C6 fails as stated: the response `notFoundRequest` has status 404 and an `X-Sendfile`
header; the filter passes it on and the header is still in `headers_out`. -/
theorem filter_keeps_directive_of_skipped_response :
    (ap_xsendfile_output_filter (sampleHost 0) samplePlatform ⟨false, false⟩ filesOnlyConf
      filesOnlyConf 0 notFoundRequest [apr_bucket.body "not found"]).map
      (fun res => apr_table_get res.r.headers_out AP_XSENDFILE_HEADER)
      = some (some "reports/out.pdf") := by
  decide

/-! ## The Last-Modified header -/

/-- Claim C7, what the code does: whatever the setting of `ignoreLM`, when `headers_out` has no
`Last-Modified` entry the filter removes every `Last-Modified` entry of `err_headers_out`, so a
value the script placed in the error-path map alone is not kept. -/
theorem metadata_drops_error_path_last_modified (H : Host) (conf : xsendfile_conf_t)
    (r : request_rec) (finfo : apr_finfo_t)
    (h : apr_table_get r.headers_out "last-modified" = none) :
    apr_table_get (xsendfile_metadata H conf r finfo).err_headers_out "last-modified" = none := by
  have hstep : apr_table_get
      (last_modified_step H conf (splice_finfo r finfo) finfo).err_headers_out "last-modified"
      = none := by
    have h2 : apr_table_get (splice_finfo r finfo).headers_out "last-modified" = none := h
    unfold last_modified_step
    rw [if_pos (Or.inr ⟨h2, h2⟩)]
    simp only [ap_set_last_modified_err_headers_out, ap_update_mtime_err_headers_out]
    exact apr_table_get_unset_self _ _
  show apr_table_get
    (etag_step H conf (last_modified_step H conf (splice_finfo r finfo) finfo)).err_headers_out
    "last-modified" = none
  unfold etag_step
  split_ifs
  · exact apr_table_get_unset_of_none _ _ _ hstep
  · exact hstep

/-- Witness of `metadata_drops_error_path_last_modified`, at the failing input of claim C7: with
`ignoreLM` unset and the script's `Last-Modified` in `err_headers_out` only, that value is gone
after the filter's metadata step and `headers_out` carries the date of the file. -/
theorem metadata_drops_error_path_last_modified_witness :
    filesOnlyConf.ignoreLM ≠ XSENDFILE_ENABLED ∧
    apr_table_get scriptDateRequest.err_headers_out "Last-Modified"
      = some "Tue, 01 Jan 2008 00:00:00 GMT" ∧
    apr_table_get scriptDateRequest.headers_out "last-modified" = none ∧
    apr_table_get (xsendfile_metadata (sampleHost 0) filesOnlyConf scriptDateRequest
      sampleFinfo).headers_out "Last-Modified" = some "Thu, 01 Jan 1970 00:00:01 GMT" ∧
    apr_table_get (xsendfile_metadata (sampleHost 0) filesOnlyConf scriptDateRequest
      sampleFinfo).err_headers_out "last-modified" = none :=
  ⟨by decide, by decide, by decide, by decide,
   metadata_drops_error_path_last_modified (sampleHost 0) filesOnlyConf scriptDateRequest
     sampleFinfo (by decide)⟩

/-! ## Percent-decoding before the resolution -/

theorem get_filepath_fails_of_all_fail (merge : String → String → apr_status_t × String)
    (lookup : String → Option String) (r : request_rec) (conf : xsendfile_conf_t)
    (file : String) (sdf : Int) (rv0 : apr_status_t) (path0 : Option String)
    (hall : ∀ q ∈ patharr lookup r conf sdf, attempted sdf q → (merge q.path file).1 ≠ OK)
    (htried : sdf = 0 ∨ ∃ q ∈ conf.paths, q.allowFileDelete ≠ 0) :
    (ap_xsendfile_get_filepath merge lookup r conf file sdf rv0 path0).1 ≠ OK := by
  have hf : (patharr lookup r conf sdf).find? (fun q => decide (accepts merge file sdf q))
      = none := by
    rw [List.find?_eq_none]
    intro x hx
    simp only [decide_eq_true_eq]
    exact fun ha => hall x hx ha.1 ha.2
  unfold ap_xsendfile_get_filepath
  by_cases hlen : (patharr lookup r conf sdf).length = 0
  · rw [if_pos hlen]; simp [APR_EBADPATH, OK]
  · rw [if_neg hlen]
    obtain ⟨-, -, h3, -⟩ := filepath_loop_reject merge file sdf _ ⟨0, rv0, path0⟩ hf
    have hrv : (filepath_final merge lookup r conf file sdf rv0 path0).rv ≠ OK := by
      apply h3
      right
      by_cases hs : sdf = 0
      · obtain ⟨q, hq⟩ := List.exists_mem_of_length_pos (Nat.pos_of_ne_zero hlen)
        exact ⟨q, hq, fun hc => hc.1 hs⟩
      · rcases htried with hs0 | ⟨q, hq, hdel⟩
        · exact absurd hs0 hs
        · exact ⟨q, by rw [patharr_temporary _ _ _ _ hs]; exact hq, fun hc => hdel hc.2⟩
    simp [hrv]

theorem patharr_of_processed (lookup : String → Option String) (r : request_rec)
    (conf : xsendfile_conf_t) (sdf : Int) :
    patharr lookup (drop_body_headers (remove_directive_headers r)) conf sdf =
      patharr lookup r conf sdf := rfl

/-- Claim C4, as the code has it: with unescape enabled or unset and the decoder of httpd, the
directive `%2e%2e%2fsecret` is refused by the decoding step, which reports the encoded slash,
and the filter answers 500 for every configured root list without resolving anything; the
directive `%2e%2e/secret`, whose slash is literal, is decoded to `../secret` and it is the
decoded value that goes to the resolution: when the merge of `../secret` fails on every
candidate root the loop tries and at least one root is tried, the filter answers 404. -/
theorem filter_percent_encoded_traversal (H : Host) (P : Platform) (coreconf : core_dir_config)
    (sconf dconf : xsendfile_conf_t) (rv0 : apr_status_t) (r : request_rec)
    (bin : List apr_bucket)
    (hdec : H.ap_unescape_url = ap_unescape_url)
    (hun : (xsendfile_config_merge sconf dconf).unescape ≠ XSENDFILE_DISABLED)
    (hgate : ¬ request_skipped r) :
    ((select_directive r).1 = some "%2e%2e%2fsecret" →
      ap_xsendfile_output_filter H P coreconf sconf dconf rv0 r bin =
        some { r := drop_body_headers (remove_directive_headers r),
               outcome := Outcome.died HTTP_INTERNAL_SERVER_ERROR,
               file := file_state.not_opened }) ∧
    ((select_directive r).1 = some "%2e%2e/secret" →
      ap_unescape_url "%2e%2e/secret" = (OK, "../secret") ∧
      (((select_directive r).2 = 0 ∨
          ∃ q ∈ (xsendfile_config_merge sconf dconf).paths, q.allowFileDelete ≠ 0) →
        (∀ q ∈ patharr H.ap_sub_req_lookup_uri r (xsendfile_config_merge sconf dconf)
              (select_directive r).2,
          attempted (select_directive r).2 q →
          (H.apr_filepath_merge q.path "../secret").1 ≠ OK) →
        ap_xsendfile_output_filter H P coreconf sconf dconf rv0 r bin =
          some { r := drop_body_headers (remove_directive_headers r),
                 outcome := Outcome.died HTTP_NOT_FOUND,
                 file := file_state.not_opened })) := by
  constructor
  · intro hsel
    have hd : ap_unescape_url "%2e%2e%2fsecret" = (HTTP_NOT_FOUND, "../secret") := by decide
    unfold ap_xsendfile_output_filter xsendfile_locate
    simp only [if_neg hgate, hsel, hdec, hd, no_value, Option.getD]
    simp [hun, HTTP_NOT_FOUND, OK]
  · intro hsel
    have hd : ap_unescape_url "%2e%2e/secret" = (OK, "../secret") := by decide
    refine ⟨hd, ?_⟩
    intro htried hall
    have hfail := get_filepath_fails_of_all_fail H.apr_filepath_merge H.ap_sub_req_lookup_uri
      (drop_body_headers (remove_directive_headers r)) (xsendfile_config_merge sconf dconf)
      "../secret" (select_directive r).2 rv0 none
      (by rw [patharr_of_processed]; exact hall) htried
    unfold ap_xsendfile_output_filter xsendfile_locate
    simp only [if_neg hgate, hsel, hdec, hd, no_value, Option.getD]
    simp [hun, hfail]

/-- Witness of `filter_percent_encoded_traversal`: the two directives with the root
`/srv/files`, on a host whose merge resolves `../secret` on the root `/` to `/secret` and fails
on the three roots the loop tries (the directory of the request and the configured root, which
the merge of the two configurations lists twice). -/
theorem filter_percent_encoded_traversal_witness :
    (rootedHost 0).ap_unescape_url = ap_unescape_url ∧
    (xsendfile_config_merge filesOnlyConf filesOnlyConf).unescape ≠ XSENDFILE_DISABLED ∧
    ¬ request_skipped encodedSlashRequest ∧
    (select_directive encodedSlashRequest).1 = some "%2e%2e%2fsecret" ∧
    ap_xsendfile_output_filter (rootedHost 0) samplePlatform ⟨false, false⟩ filesOnlyConf
      filesOnlyConf 0 encodedSlashRequest [apr_bucket.body "generated"] =
      some { r := drop_body_headers (remove_directive_headers encodedSlashRequest),
             outcome := Outcome.died HTTP_INTERNAL_SERVER_ERROR,
             file := file_state.not_opened } ∧
    ¬ request_skipped encodedDotsRequest ∧
    (select_directive encodedDotsRequest).1 = some "%2e%2e/secret" ∧
    (rootedHost 0).apr_filepath_merge "/" "../secret" = (OK, "/secret") ∧
    patharr (rootedHost 0).ap_sub_req_lookup_uri encodedDotsRequest
      (xsendfile_config_merge filesOnlyConf filesOnlyConf) (select_directive encodedDotsRequest).2
      = [{ path := "/var/www/app/", allowFileDelete := 0 },
         { path := "/srv/files", allowFileDelete := 0 },
         { path := "/srv/files", allowFileDelete := 0 }] ∧
    ap_xsendfile_output_filter (rootedHost 0) samplePlatform ⟨false, false⟩ filesOnlyConf
      filesOnlyConf 0 encodedDotsRequest [apr_bucket.body "generated"] =
      some { r := drop_body_headers (remove_directive_headers encodedDotsRequest),
             outcome := Outcome.died HTTP_NOT_FOUND,
             file := file_state.not_opened } :=
  ⟨rfl, by decide, by decide, by decide,
   (filter_percent_encoded_traversal (rootedHost 0) samplePlatform ⟨false, false⟩ filesOnlyConf
      filesOnlyConf 0 encodedSlashRequest [apr_bucket.body "generated"] rfl (by decide)
      (by decide)).1 (by decide),
   by decide, by decide, by decide, by decide,
   ((filter_percent_encoded_traversal (rootedHost 0) samplePlatform ⟨false, false⟩ filesOnlyConf
      filesOnlyConf 0 encodedDotsRequest [apr_bucket.body "generated"] rfl (by decide)
      (by decide)).2 (by decide)).2 (Or.inl (by decide)) (by decide)⟩

/-- Claim C4 fails as stated: on the sample host, with unescape unset and the root `/srv/files`,
the decoder reports the directive `%2e%2e%2fsecret` with `HTTP_NOT_FOUND` because of its encoded
slash, and the filter ends with `ap_die` on status 500, not 404. -/
theorem filter_encoded_slash_is_bad_encoding :
    ap_unescape_url "%2e%2e%2fsecret" = (HTTP_NOT_FOUND, "../secret") ∧
    (ap_xsendfile_output_filter (sampleHost 0) samplePlatform ⟨false, false⟩ filesOnlyConf
      filesOnlyConf 0 encodedSlashRequest [apr_bucket.body "generated"]).map
      (fun res => res.outcome) = some (Outcome.died HTTP_INTERNAL_SERVER_ERROR) ∧
    Outcome.died HTTP_INTERNAL_SERVER_ERROR ≠ Outcome.died HTTP_NOT_FOUND := by
  decide

/-! ## Merge of the configurations -/

/-- Claim C11: `xsendfile_config_merge base overrides` has, for each of the four flags `enabled`,
`ignoreETag`, `ignoreLM` and `unescape`, the value of `overrides` when that value is not
`XSENDFILE_UNSET` and the value of `base` otherwise, and its path list is the paths of
`overrides` in order followed by the paths of `base` in order; the output filter works with the
merge of the server configuration, as base, and the directory configuration, as overrides, and
depends on the two configurations through that merge only. -/
theorem config_merge_overrides_then_base (base overrides : xsendfile_conf_t) (H : Host)
    (P : Platform) (coreconf : core_dir_config) (rv0 : apr_status_t) (r : request_rec)
    (bin : List apr_bucket) :
    ((xsendfile_config_merge base overrides).enabled =
      if overrides.enabled ≠ XSENDFILE_UNSET then overrides.enabled else base.enabled) ∧
    ((xsendfile_config_merge base overrides).ignoreETag =
      if overrides.ignoreETag ≠ XSENDFILE_UNSET then overrides.ignoreETag else base.ignoreETag) ∧
    ((xsendfile_config_merge base overrides).ignoreLM =
      if overrides.ignoreLM ≠ XSENDFILE_UNSET then overrides.ignoreLM else base.ignoreLM) ∧
    ((xsendfile_config_merge base overrides).unescape =
      if overrides.unescape ≠ XSENDFILE_UNSET then overrides.unescape else base.unescape) ∧
    (xsendfile_config_merge base overrides).paths = overrides.paths ++ base.paths ∧
    (ap_xsendfile_output_filter H P coreconf base overrides rv0 r bin =
      match xsendfile_locate H P coreconf (xsendfile_config_merge base overrides) rv0 r bin with
      | Sum.inl res => some res
      | Sum.inr loc => xsendfile_emit H P coreconf (xsendfile_config_merge base overrides) loc) ∧
    (∀ sconf dconf : xsendfile_conf_t,
      xsendfile_config_merge sconf dconf = xsendfile_config_merge base overrides →
      ap_xsendfile_output_filter H P coreconf sconf dconf rv0 r bin =
        ap_xsendfile_output_filter H P coreconf base overrides rv0 r bin) := by
  refine ⟨rfl, rfl, rfl, rfl, rfl, rfl, ?_⟩
  intro sconf dconf h
  unfold ap_xsendfile_output_filter
  rw [h]

end XSendfile
